import Mathlib

/-!
# Surfer backend: authentication core

A shallow embedding of `backend/internal/auth/auth.go`,
`backend/internal/handlers/user.go` and the route table of `backend/cmd/main.go`,
with the properties of the state tracker, the credential service, the user
lifecycle handlers and the role gate.

Modelling conventions.

* An instant (`time.Time`) is a number of nanoseconds since the Unix epoch;
  wall-clock and monotonic readings are taken to agree.  Each call of
  `time.Now()` in the source is one explicit clock reading passed as an argument.
* `map[string]time.Time` is an association list; `mapSet` and `mapDelete`
  remove every older binding of the key, so a key is bound at most once.
* The OAuth2 provider, the JSON codec and the HMAC primitive are collaborators
  outside the repository; they enter the model as parameters.
* The mutex of `AuthService` delimits the atomic steps: the sequential
  functions run one request to completion, the thread model `CallbackPC`
  interleaves the lock-protected regions of concurrent requests.
-/

namespace Surfer

/-! ## Time -/

/-- Go `time.Time`: nanoseconds since the Unix epoch. -/
structure Time where
  nanos : Int
deriving DecidableEq

/-- Go `time.Duration`: a signed count of nanoseconds. -/
abbrev Duration := Int

def Second : Duration := 1000000000

def Minute : Duration := 60 * Second

def Hour : Duration := 60 * Minute

/-- `t.Add(d)`. -/
def Time.Add (t : Time) (d : Duration) : Time := ⟨t.nanos + d⟩

/-- `t.After(u)`: `t` is strictly later than `u`. -/
def Time.After (t u : Time) : Bool := decide (u.nanos < t.nanos)

/-- `t.Before(u)`: `t` is strictly earlier than `u`. -/
def Time.Before (t u : Time) : Bool := decide (t.nanos < u.nanos)

/-- `t.UnixNano()`. -/
def Time.UnixNano (t : Time) : Int := t.nanos

/-- `t.Truncate(d)`: round down to a multiple of `d`; `d <= 0` returns `t`. -/
def Time.Truncate (t : Time) (d : Duration) : Time :=
  if d ≤ 0 then t else ⟨t.nanos - t.nanos % d⟩

/-! ## State tracker (`auth.go`) -/

/-- The `states map[string]time.Time` field. -/
abbrev States := List (String × Time)

/-- `expiration, exists := states[k]`. -/
def mapGet (m : States) (k : String) : Option Time :=
  match m with
  | [] => none
  | (k', v) :: rest => if k' = k then some v else mapGet rest k

/-- `delete(states, k)`. -/
def mapDelete (m : States) (k : String) : States :=
  m.filter (fun e => decide (e.1 ≠ k))

/-- `states[k] = v`. -/
def mapSet (m : States) (k : String) (v : Time) : States :=
  (k, v) :: mapDelete m k

structure GoogleUser where
  ID : String
  Email : String
  Name : String
  Picture : String
deriving DecidableEq

/-- The `oauth2.Config` of the service together with the remote provider and the
JSON decoder it talks to: collaborators outside the repository. `none` stands for
a returned error. -/
structure OAuthConfig where
  AuthCodeURL : String → String
  Exchange : String → Option String
  GetUserInfo : String → Option String
  DecodeUser : String → Option GoogleUser

structure AuthService where
  config : OAuthConfig
  states : States

/-- `fmt.Sprintf("%d", time.Now().UnixNano())`, with `now` the clock reading. -/
def generateRandomState (now : Time) : String :=
  toString now.UnixNano

/-- What `HandleGoogleLogin` sends back: the JSON body `{"url": url}` and the
`oauth_state` cookie. -/
structure LoginResponse where
  url : String
  cookie : String
deriving DecidableEq

/-- `HandleGoogleLogin`. `nowState` is the clock reading inside
`generateRandomState()`, `nowStore` the reading of `time.Now().Add(5 * time.Minute)`. -/
def HandleGoogleLogin (a : AuthService) (nowState nowStore : Time) :
    AuthService × LoginResponse :=
  let state := generateRandomState nowState
  let url := a.config.AuthCodeURL state
  ({ a with states := mapSet a.states state (nowStore.Add (5 * Minute)) },
   { url := url, cookie := state })

/-- The responses of `HandleGoogleCallback`, one per `c.JSON` call. -/
inductive CallbackResponse where
  | missingState
  | invalidOrExpiredState
  | exchangeFailed
  | userInfoFailed
  | decodeFailed
  | ok (user : GoogleUser)
deriving DecidableEq

/-- The request went past the state check (lines 82-95 of `auth.go`). -/
def CallbackResponse.passedStateCheck : CallbackResponse → Bool
  | .missingState => false
  | .invalidOrExpiredState => false
  | _ => true

/-- The request was turned away by the state check, before `a.config.Exchange`. -/
def CallbackResponse.rejected (r : CallbackResponse) : Bool := !r.passedStateCheck

/-- `HandleGoogleCallback`, run without interleaving. `state` and `code` are the
query parameters (`""` when absent), `now` is the reading of `time.Now()` in the
expiry check. -/
def HandleGoogleCallback (a : AuthService) (now : Time) (state code : String) :
    AuthService × CallbackResponse :=
  if state = "" then (a, .missingState)
  else
    match mapGet a.states state with
    | none => (a, .invalidOrExpiredState)
    | some expiration =>
      if now.After expiration then (a, .invalidOrExpiredState)
      else
        let a' := { a with states := mapDelete a.states state }
        match a.config.Exchange code with
        | none => (a', .exchangeFailed)
        | some token =>
          match a.config.GetUserInfo token with
          | none => (a', .userInfoFailed)
          | some body =>
            match a.config.DecodeUser body with
            | none => (a', .decodeFailed)
            | some googleUser => (a', .ok googleUser)

/-- One tick of the loop in `cleanupExpiredStates`, with `now` its clock reading. -/
def cleanupExpiredStates (a : AuthService) (now : Time) : AuthService :=
  { a with states := a.states.filter (fun e => !now.After e.2) }

/-- The requests and background ticks that touch the states map. -/
inductive Event where
  | login (nowState nowStore : Time)
  | callback (now : Time) (state code : String)
  | sweep (now : Time)

/-- The instant at which the event reads or writes the states map. -/
def Event.time : Event → Time
  | .login _ nowStore => nowStore
  | .callback now _ _ => now
  | .sweep now => now

/-- The state value a login event stores, if the event is a login. -/
def Event.issues : Event → Option String
  | .login nowState _ => some (generateRandomState nowState)
  | _ => none

/-- The state value a callback event carries, if the event is a callback. -/
def Event.carries : Event → Option String
  | .callback _ state _ => some state
  | _ => none

def step (a : AuthService) : Event → AuthService
  | .login nowState nowStore => (HandleGoogleLogin a nowState nowStore).1
  | .callback now state code => (HandleGoogleCallback a now state code).1
  | .sweep now => cleanupExpiredStates a now

def run (a : AuthService) (evs : List Event) : AuthService :=
  evs.foldl step a

/-! ### Concurrent callbacks

The lock-protected regions of `HandleGoogleCallback` are the atomic steps of a
request thread: the lookup under `RLock` (lines 88-90), the expiry check on the
values read (line 92, no lock held) and the removal under `Lock` (lines 98-100). -/

/-- Where one `HandleGoogleCallback` request stands. -/
inductive CallbackPC where
  | start (state : String)
  | looked (state : String) (entry : Option Time)
  | passed (state : String)
  | consumed
  | rejectedMissing
  | rejectedInvalid
deriving DecidableEq

/-- Lines 81-85: a request enters with its `state` query parameter. -/
def CallbackPC.enter (state : String) : CallbackPC :=
  if state = "" then .rejectedMissing else .start state

/-- One atomic step of a request thread on the shared map; `now` is read only by
the expiry check. -/
def threadStep (m : States) (now : Time) : CallbackPC → States × CallbackPC
  | .start state => (m, .looked state (mapGet m state))
  | .looked _ none => (m, .rejectedInvalid)
  | .looked state (some expiration) =>
    if now.After expiration then (m, .rejectedInvalid) else (m, .passed state)
  | .passed state => (mapDelete m state, .consumed)
  | .consumed => (m, .consumed)
  | .rejectedMissing => (m, .rejectedMissing)
  | .rejectedInvalid => (m, .rejectedInvalid)

/-- The shared map and the request threads in flight. -/
structure Sys where
  states : States
  threads : List CallbackPC
deriving DecidableEq

/-- The scheduler lets thread `i` take its next step at clock reading `now`. -/
def sysStep (s : Sys) (sched : Nat × Time) : Sys :=
  match s.threads.get? sched.1 with
  | none => s
  | some pc =>
    let r := threadStep s.states sched.2 pc
    { states := r.1, threads := s.threads.set sched.1 r.2 }

def runSchedule (s : Sys) (sched : List (Nat × Time)) : Sys :=
  sched.foldl sysStep s

/-- The number of threads that went past the state check. -/
def Sys.passedCount (s : Sys) : Nat :=
  (s.threads.filter (fun pc => decide (pc = .consumed))).length

/-! ## Credential service (`auth.go`, over `golang-jwt/jwt/v5`) -/

/-- `jwt.NumericDate`: an instant at `jwt.TimePrecision`. -/
abbrev NumericDate := Time

/-- `jwt.TimePrecision`, one second by default. -/
def TimePrecision : Duration := Second

/-- `jwt.NewNumericDate(t)`. -/
def NewNumericDate (t : Time) : NumericDate := t.Truncate TimePrecision

/-- The `Claims` struct with its embedded `jwt.RegisteredClaims`. -/
structure Claims where
  UserID : Nat
  Email : String
  Role : String
  Issuer : String
  Subject : String
  Audience : List String
  ExpiresAt : Option NumericDate
  NotBefore : Option NumericDate
  IssuedAt : Option NumericDate
  ID : String
deriving DecidableEq

/-- The implementations of `jwt.SigningMethod` that the library registers. -/
inductive SigningMethod where
  | HMAC (alg : String)
  | RSA (alg : String)
  | RSAPSS (alg : String)
  | ECDSA (alg : String)
  | Ed25519
  | None
deriving DecidableEq

/-- `jwt.GetSigningMethod(alg)`: the registry of the library. -/
def GetSigningMethod (alg : String) : Option SigningMethod :=
  if alg = "HS256" ∨ alg = "HS384" ∨ alg = "HS512" then some (.HMAC alg)
  else if alg = "RS256" ∨ alg = "RS384" ∨ alg = "RS512" then some (.RSA alg)
  else if alg = "PS256" ∨ alg = "PS384" ∨ alg = "PS512" then some (.RSAPSS alg)
  else if alg = "ES256" ∨ alg = "ES384" ∨ alg = "ES512" then some (.ECDSA alg)
  else if alg = "EdDSA" then some .Ed25519
  else if alg = "none" then some .None
  else none

/-- `jwt.SigningMethodHS256`. -/
def SigningMethodHS256 : SigningMethod := .HMAC "HS256"

/-- A compact token as it travels: either not three decodable segments, or a
header naming `alg`, a claims segment and a signature. The base64url and JSON
codecs are taken to be lossless. -/
inductive TokenString where
  | malformed
  | jwt (alg : Option String) (claims : Claims) (signature : String)
deriving DecidableEq

/-- The primitives behind `Sign` and `Verify`: the keyed hash of the HMAC
methods over the signing string (header and claims segments), and signature
verification of the other methods. -/
structure Crypto where
  hmac : String → String → Option String × Claims → String
  verifyOther : SigningMethod → String → Option String × Claims → String → Bool

inductive TokenError where
  | malformed
  | unverifiable
  | signatureInvalid
  | invalidClaims (expired notValidYet : Bool)
  | invalidKey
  | invalidToken
deriving DecidableEq

/-- `jwt.Token` after parsing. -/
structure Token where
  Method : SigningMethod
  Claims : Claims
  Valid : Bool
deriving DecidableEq

/-- `os.Getenv("JWT_SECRET")` with the fallback of `GenerateToken` and
`ValidateToken`; `env` is the value of the variable, `""` when unset. -/
def jwtSecret (env : String) : String :=
  if env = "" then "your-secret-key-change-this" else env

/-- `Method.Alg()`. -/
def SigningMethod.Alg : SigningMethod → String
  | .HMAC alg => alg
  | .RSA alg => alg
  | .RSAPSS alg => alg
  | .ECDSA alg => alg
  | .Ed25519 => "EdDSA"
  | .None => "none"

/-- `Method.Sign(signingString, key)` with a `[]byte` key: only the HMAC methods
take such a key. -/
def SigningMethod.Sign (cr : Crypto) (m : SigningMethod)
    (text : Option String × Claims) (key : String) : Except TokenError String :=
  match m with
  | .HMAC alg => .ok (cr.hmac alg key text)
  | _ => .error .invalidKey

/-- `jwt.NewWithClaims(method, claims).SignedString(key)`. -/
def SignedString (cr : Crypto) (method : SigningMethod) (claims : Claims)
    (key : String) : Except TokenError TokenString :=
  let text := (some method.Alg, claims)
  match method.Sign cr text key with
  | .error e => .error e
  | .ok signature => .ok (.jwt (some method.Alg) claims signature)

/-- `GenerateToken`. `nowExp` is the clock reading of
`time.Now().Add(24 * time.Hour)`, `nowIat` the next reading, of `time.Now()`. -/
def GenerateToken (cr : Crypto) (env : String) (nowExp nowIat : Time)
    (userID : Nat) (email role : String) : Except TokenError TokenString :=
  let claims : Claims :=
    { UserID := userID, Email := email, Role := role,
      Issuer := "", Subject := "", Audience := [],
      ExpiresAt := some (NewNumericDate (nowExp.Add (24 * Hour))),
      NotBefore := none,
      IssuedAt := some (NewNumericDate nowIat),
      ID := "" }
  let secret := jwtSecret env
  SignedString cr SigningMethodHS256 claims secret

/-- Decoding of the claims segment: `NumericDate.UnmarshalJSON` builds each
date with `NewNumericDate`. -/
def decodeClaims (c : Claims) : Claims :=
  { c with ExpiresAt := c.ExpiresAt.map NewNumericDate,
           NotBefore := c.NotBefore.map NewNumericDate,
           IssuedAt := c.IssuedAt.map NewNumericDate }

/-- The key function that `ValidateToken` passes to `jwt.ParseWithClaims`. -/
def keyFunc (secret : String) (method : SigningMethod) : Except TokenError String :=
  match method with
  | .HMAC _ => .ok secret
  | _ => .error .unverifiable

/-- `Method.Verify(signingString, signature, key)`. -/
def SigningMethod.Verify (cr : Crypto) (m : SigningMethod)
    (text : Option String × Claims) (signature key : String) : Bool :=
  match m with
  | .HMAC alg => decide (signature = cr.hmac alg key text)
  | other => cr.verifyOther other key text signature

/-- The default `jwt.Validator`: `exp` and `nbf` are optional and checked when
present, with no leeway; `iat` is not checked. -/
def validateClaims (now : Time) (c : Claims) : Except TokenError Unit :=
  let expired := match c.ExpiresAt with
    | none => false
    | some exp => !now.Before exp
  let notValidYet := match c.NotBefore with
    | none => false
    | some nbf => now.Before nbf
  if expired || notValidYet then .error (.invalidClaims expired notValidYet) else .ok ()

/-- `jwt.ParseWithClaims(tokenString, &Claims{}, keyFunc)` with the default
parser (no `WithValidMethods`). -/
def ParseWithClaims (cr : Crypto) (now : Time) (tokenString : TokenString)
    (kf : SigningMethod → Except TokenError String) : Except TokenError Token :=
  match tokenString with
  | .malformed => .error .malformed
  | .jwt none _ _ => .error .unverifiable
  | .jwt (some alg) raw signature =>
    match GetSigningMethod alg with
    | none => .error .unverifiable
    | some method =>
      match kf method with
      | .error e => .error e
      | .ok key =>
        if method.Verify cr (some alg, raw) signature key then
          let claims := decodeClaims raw
          match validateClaims now claims with
          | .error e => .error e
          | .ok _ => .ok { Method := method, Claims := claims, Valid := true }
        else .error .signatureInvalid

/-- `ValidateToken`. `now` is the clock reading of the validator. -/
def ValidateToken (cr : Crypto) (env : String) (now : Time)
    (tokenString : TokenString) : Except TokenError Claims :=
  let secret := jwtSecret env
  match ParseWithClaims cr now tokenString (keyFunc secret) with
  | .error e => .error e
  | .ok token => if token.Valid then .ok token.Claims else .error .invalidToken


/-! ## User lifecycle handlers (`handlers/user.go`) -/

/-- The `models.User` row. -/
structure User where
  ID : Nat
  Email : String
  Name : String
  Picture : String
  GoogleID : String
  Role : String
  Status : String
  ApprovedBy : Option Nat
  ApprovedAt : Option Time
  CreatedAt : Time
  UpdatedAt : Time
  DeletedAt : Option Time
deriving DecidableEq

/-- The `users` table behind `*gorm.DB`; `failing` makes every statement return
an error. -/
structure DB where
  users : List User
  failing : Bool
deriving DecidableEq

structure UserHandler where
  db : DB
deriving DecidableEq

/-- The `gorm.DB` value returned by a statement. -/
structure Result where
  Error : Bool
  RowsAffected : Nat
deriving DecidableEq

/-- The rows selected by `Model(&models.User{}).Where("id = ?", id)`: soft-deleted
rows are left out by gorm. -/
def DB.selects (id : Nat) (u : User) : Bool :=
  decide (u.ID = id) && decide (u.DeletedAt = none)

/-- `db.Model(&models.User{}).Where("id = ?", id).Update(...)` and `.Updates(...)`:
`assign` writes the named columns, gorm adds `updated_at = now`. -/
def DB.Update (db : DB) (now : Time) (id : Nat) (assign : User → User) : DB × Result :=
  if db.failing then (db, { Error := true, RowsAffected := 0 })
  else
    let write := fun (u : User) =>
      if DB.selects id u then
        let u' := assign u
        { u' with UpdatedAt := now }
      else u
    ({ db with users := db.users.map write },
     { Error := false, RowsAffected := (db.users.filter (DB.selects id)).length })

/-- `strconv.ParseUint(s, 10, 32)`: a non-empty run of decimal digits below 2^32. -/
def ParseUint32 (s : String) : Option Nat :=
  if s = "" then none
  else if s.data.all Char.isDigit then
    let n := s.data.foldl (fun n c => n * 10 + (c.toNat - 48)) 0
    if n < 2 ^ 32 then some n else none
  else none

/-- A JSON response of a handler: the HTTP status and the `error` or `message` text. -/
structure Response where
  status : Nat
  isError : Bool
  text : String
deriving DecidableEq

/-- `c.ShouldBindJSON(&req)` for `struct { Role string; binding:"required" }`:
`body` is the decoded `role` field (`""` when the key is missing), `none` a body
that does not decode. -/
def bindRole (body : Option String) : Except String String :=
  match body with
  | none => .error "invalid request body"
  | some role =>
    if role = "" then
      .error "Key: 'Role' Error:Field validation for 'Role' failed on the 'required' tag"
    else .ok role

/-- `ApproveUser`. `idParam` is `c.Param("id")`, `ctxUserID` the `user_id` entry
of the request context, `dbNow` the value of SQL `NOW()`, `now` the clock reading
gorm uses for `updated_at`. -/
def ApproveUser (h : UserHandler) (now dbNow : Time) (idParam : String)
    (ctxUserID : Option Nat) : UserHandler × Response :=
  match ParseUint32 idParam with
  | none => (h, ⟨400, true, "Invalid user ID"⟩)
  | some id =>
    let adminID := ctxUserID
    let approvedAt := dbNow
    let r := h.db.Update now id (fun u =>
      { u with Status := "approved", Role := "user",
               ApprovedBy := adminID, ApprovedAt := some approvedAt })
    if r.2.Error then ({ db := r.1 }, ⟨500, true, "Failed to approve user"⟩)
    else if r.2.RowsAffected = 0 then ({ db := r.1 }, ⟨404, true, "User not found"⟩)
    else ({ db := r.1 }, ⟨200, false, "User approved successfully"⟩)

/-- `RejectUser`. -/
def RejectUser (h : UserHandler) (now : Time) (idParam : String) :
    UserHandler × Response :=
  match ParseUint32 idParam with
  | none => (h, ⟨400, true, "Invalid user ID"⟩)
  | some id =>
    let r := h.db.Update now id (fun u => { u with Status := "rejected" })
    if r.2.Error then ({ db := r.1 }, ⟨500, true, "Failed to reject user"⟩)
    else if r.2.RowsAffected = 0 then ({ db := r.1 }, ⟨404, true, "User not found"⟩)
    else ({ db := r.1 }, ⟨200, false, "User rejected successfully"⟩)

/-- `UpdateUserRole`. `body` is the request body as `bindRole` takes it. -/
def UpdateUserRole (h : UserHandler) (now : Time) (idParam : String)
    (body : Option String) : UserHandler × Response :=
  match ParseUint32 idParam with
  | none => (h, ⟨400, true, "Invalid user ID"⟩)
  | some id =>
    match bindRole body with
    | .error err => (h, ⟨400, true, err⟩)
    | .ok role =>
      if role ≠ "user" ∧ role ≠ "admin" then
        (h, ⟨400, true, "Invalid role. Must be 'user' or 'admin'"⟩)
      else
        let r := h.db.Update now id (fun u => { u with Role := role })
        if r.2.Error then ({ db := r.1 }, ⟨500, true, "Failed to update user role"⟩)
        else if r.2.RowsAffected = 0 then ({ db := r.1 }, ⟨404, true, "User not found"⟩)
        else ({ db := r.1 }, ⟨200, false, "User role updated successfully"⟩)

/-- The row with the given id that the handlers act on, if there is one. -/
def DB.find (db : DB) (id : Nat) : Option User :=
  db.users.find? (DB.selects id)


/-! ### The lifecycle calls as a sequence -/

/-- One administrator call on the `users` table, with the inputs of its handler. -/
inductive LifecycleOp where
  | approve (now dbNow : Time) (idParam : String) (ctxUserID : Option Nat)
  | reject (now : Time) (idParam : String)
  | setRole (now : Time) (idParam : String) (body : Option String)

/-- The handler state after one call. -/
def LifecycleOp.run (h : UserHandler) : LifecycleOp → UserHandler
  | .approve now dbNow idParam ctxUserID => (ApproveUser h now dbNow idParam ctxUserID).1
  | .reject now idParam => (RejectUser h now idParam).1
  | .setRole now idParam body => (UpdateUserRole h now idParam body).1

/-- The handler state after a sequence of calls, first call first. -/
def runOps (h : UserHandler) (ops : List LifecycleOp) : UserHandler :=
  ops.foldl LifecycleOp.run h

def LifecycleOp.isApprove : LifecycleOp → Bool
  | .approve _ _ _ _ => true
  | _ => false

def LifecycleOp.isReject : LifecycleOp → Bool
  | .reject _ _ => true
  | _ => false

/-- The role/status policy of the data model: role `user` or `admin` only with
status `approved`, and role `pending` with status `pending` or `rejected`. -/
def coupled (u : User) : Prop :=
  ((u.Role = "user" ∨ u.Role = "admin") → u.Status = "approved") ∧
  ((u.Status = "pending" ∨ u.Status = "rejected") → u.Role = "pending")

instance (u : User) : Decidable (coupled u) := by
  unfold coupled
  exact inferInstance

/-- What may happen to one row over a sequence of calls: same id, and the status
stays, or becomes `approved` with an `ApproveUser` among the calls, or becomes
`rejected` with a `RejectUser` among them. -/
def statusMove (ops : List LifecycleOp) (v v' : User) : Prop :=
  v'.ID = v.ID ∧
  (v'.Status = v.Status ∨
   (v'.Status = "approved" ∧ ∃ op ∈ ops, op.isApprove = true) ∨
   (v'.Status = "rejected" ∧ ∃ op ∈ ops, op.isReject = true))

/-! ### The calls of the callback to the provider -/

/-- A call that `HandleGoogleCallback` makes to the provider: the code exchange
`a.config.Exchange(ctx, code)` of line 104, or the profile request `client.Get`
of line 112 with the token obtained. -/
inductive ProviderCall where
  | exchange (code : String)
  | userInfo (token : String)
deriving DecidableEq

/-- `HandleGoogleCallback`, statement by statement as in `auth.go:79-131`, with
the calls to the provider recorded in the order they are made: besides the
service afterwards and the response, the list of calls attempted by the request.
The handler has no statement that issues a credential (`GenerateToken` is not
called on any path). -/
def HandleGoogleCallbackTraced (a : AuthService) (now : Time) (state code : String) :
    AuthService × CallbackResponse × List ProviderCall :=
  if state = "" then (a, .missingState, [])
  else
    match mapGet a.states state with
    | none => (a, .invalidOrExpiredState, [])
    | some expiration =>
      if now.After expiration then (a, .invalidOrExpiredState, [])
      else
        let a' := { a with states := mapDelete a.states state }
        match a.config.Exchange code with
        | none => (a', .exchangeFailed, [.exchange code])
        | some token =>
          match a.config.GetUserInfo token with
          | none => (a', .userInfoFailed, [.exchange code, .userInfo token])
          | some body =>
            match a.config.DecodeUser body with
            | none => (a', .decodeFailed, [.exchange code, .userInfo token])
            | some googleUser => (a', .ok googleUser, [.exchange code, .userInfo token])

/-! ## Wiring (`cmd/main.go`) -/

/-- The two services `main` constructs: `auth.NewAuthService()` takes no database
handle, `handlers.NewUserHandler(db)` holds the `users` table. -/
structure App where
  authService : AuthService
  userHandler : UserHandler

/-- A request to `/auth/google/callback`: `authService.HandleGoogleCallback` is
the registered handler, the user handler is not involved. -/
def App.HandleGoogleCallback (app : App) (now : Time) (state code : String) :
    App × CallbackResponse :=
  let r := Surfer.HandleGoogleCallback app.authService now state code
  ({ app with authService := r.1 }, r.2)

/-- The middleware that `main` installs, by name. -/
inductive Middleware where
  | Logger
  | Recovery
  | CORS
  | AuthRequired
  | AdminRequired
deriving DecidableEq

/-- A `gin.RouterGroup`: its base path and the handlers chain it has so far. -/
structure RouterGroup where
  basePath : String
  Handlers : List Middleware
deriving DecidableEq

/-- The path join of gin for the paths `main` uses: an empty relative path keeps
the base, the root `/` is dropped before a relative path. -/
def joinPaths (absolutePath relativePath : String) : String :=
  if relativePath = "" then absolutePath
  else if absolutePath = "/" then relativePath
  else absolutePath ++ relativePath

/-- `group.Group(relativePath)`: the new group inherits the chain. -/
def RouterGroup.Group (g : RouterGroup) (relativePath : String) : RouterGroup :=
  { basePath := joinPaths g.basePath relativePath, Handlers := g.Handlers }

/-- `group.Use(m)`. -/
def RouterGroup.Use (g : RouterGroup) (m : Middleware) : RouterGroup :=
  { g with Handlers := g.Handlers ++ [m] }

/-- A registered route: the chain is the one of its group at registration. -/
structure Route where
  method : String
  path : String
  chain : List Middleware
  handler : String
deriving DecidableEq

/-- `group.GET(relativePath, handler)` and the other verbs. -/
def RouterGroup.handle (g : RouterGroup) (method relativePath handler : String) : Route :=
  { method := method, path := joinPaths g.basePath relativePath,
    chain := g.Handlers, handler := handler }

/-- The routes registered by `main`, lines 41-105, in order. -/
def routes : List Route :=
  let router : RouterGroup := { basePath := "/", Handlers := [.Logger, .Recovery] }
  let router := router.Use .CORS
  let v1 := router.Group "/api/v1"
  let auth := v1.Group "/auth"
  let protectedGroup := (v1.Group "").Use .AuthRequired
  let users := protectedGroup.Group "/users"
  let admin := (protectedGroup.Group "/admin").Use .AdminRequired
  let clusters := protectedGroup.Group "/clusters"
  let k8s := protectedGroup.Group "/k8s"
  [ router.handle "GET" "/health" "health",
    auth.handle "GET" "/google/login" "authService.HandleGoogleLogin",
    auth.handle "GET" "/google/callback" "authService.HandleGoogleCallback",
    auth.handle "POST" "/logout" "authService.HandleLogout",
    users.handle "GET" "/me" "userHandler.GetCurrentUser",
    users.handle "GET" "" "userHandler.ListUsers",
    admin.handle "GET" "/pending-users" "userHandler.GetPendingUsers",
    admin.handle "POST" "/approve-user/:id" "userHandler.ApproveUser",
    admin.handle "POST" "/reject-user/:id" "userHandler.RejectUser",
    admin.handle "PUT" "/users/:id/role" "userHandler.UpdateUserRole",
    clusters.handle "GET" "" "clusterHandler.ListClusters",
    clusters.handle "POST" "" "clusterHandler.AddCluster",
    clusters.handle "GET" "/:id" "clusterHandler.GetCluster",
    clusters.handle "PUT" "/:id" "clusterHandler.UpdateCluster",
    clusters.handle "DELETE" "/:id" "clusterHandler.DeleteCluster",
    clusters.handle "POST" "/:id/test" "clusterHandler.TestConnection",
    k8s.handle "GET" "/clusters/:clusterId/namespaces" "k8sHandler.ListNamespaces",
    k8s.handle "GET" "/clusters/:clusterId/namespaces/:namespace/pods" "k8sHandler.ListPods",
    k8s.handle "GET" "/clusters/:clusterId/namespaces/:namespace/deployments"
      "k8sHandler.ListDeployments",
    k8s.handle "GET" "/clusters/:clusterId/namespaces/:namespace/services"
      "k8sHandler.ListServices",
    k8s.handle "GET" "/clusters/:clusterId/namespaces/:namespace/pods/:pod/logs"
      "k8sHandler.GetPodLogs",
    k8s.handle "DELETE" "/clusters/:clusterId/namespaces/:namespace/pods/:pod"
      "k8sHandler.DeletePod" ]

/-- The route lies in the `/admin` group of the API. -/
def Route.isAdmin (r : Route) : Bool :=
  "/api/v1/admin/".data.isPrefixOf r.path.data

/-! ## Role gate (`middleware`) -/

/-- A value stored in the request context with `c.Set`. -/
inductive CtxValue where
  | uint (n : Nat)
  | str (s : String)
deriving DecidableEq

/-- The keys of a `gin.Context`. -/
abbrev Context := List (String × CtxValue)

/-- `value, exists := c.Get(key)`. -/
def ctxGet (c : Context) (key : String) : Option CtxValue :=
  match c with
  | [] => none
  | (k, v) :: rest => if k = key then some v else ctxGet rest key

/-- `c.Set(key, value)`. -/
def ctxSet (c : Context) (key : String) (value : CtxValue) : Context :=
  (key, value) :: c

/-- What a middleware does with the request: `c.Next()` on to the handler, or
abort with a status. -/
inductive GateOutcome where
  | next
  | abort (status : Nat)
deriving DecidableEq

/-- Modelled from the spec: `middleware.AdminRequired`, whose file
`internal/middleware/middleware.go` is not among the sources (its test is).
Section 4.4: the role gate reads the role attached to the context; if the role is
not `admin` it terminates with a forbidden outcome, otherwise it continues; a
missing role is treated like an insufficient one. -/
def AdminRequired (c : Context) : GateOutcome :=
  if ctxGet c "user_role" = some (.str "admin") then .next else .abort 403

/-- The request as the route serves it behind the role gate: the handler's status
when the gate lets it through, the gate's status otherwise, and whether the
handler ran. -/
def serveBehindAdminRequired (handler : Context → Nat) (c : Context) : Nat × Bool :=
  match AdminRequired c with
  | .next => (handler c, true)
  | .abort status => (status, false)

/-! ## Concrete values for the examples -/

/-- A provider whose consent URL is the state itself and whose code exchange
always fails. -/
def offlineConfig : OAuthConfig :=
  { AuthCodeURL := fun state => state,
    Exchange := fun _ => none,
    GetUserInfo := fun _ => none,
    DecodeUser := fun _ => none }

/-- A freshly constructed service, as `NewAuthService` returns it. -/
def freshService : AuthService := { config := offlineConfig, states := [] }

/-- A toy keyed tag in place of HMAC, and no other verifier: enough to run the
credential service on concrete inputs. -/
def toyCrypto : Crypto :=
  { hmac := fun alg key text => alg ++ "/" ++ key ++ "/" ++ text.2.Email,
    verifyOther := fun _ _ _ _ => false }

/-- The claims segment of a token that `GenerateToken` returns. -/
def issuedClaims (r : Except TokenError TokenString) : Option Claims :=
  match r with
  | .ok (.jwt _ claims _) => some claims
  | _ => none

/-- Claims with the registered fields that `GenerateToken` leaves empty. -/
def plainClaims (userID : Nat) (email role : String) (exp : Option Time) : Claims :=
  { UserID := userID, Email := email, Role := role,
    Issuer := "", Subject := "", Audience := [],
    ExpiresAt := exp, NotBefore := none, IssuedAt := none, ID := "" }

/-- A row of the `users` table as first created: role and status `pending`. -/
def pendingUser (id : Nat) : User :=
  { ID := id, Email := "new@example.com", Name := "New", Picture := "", GoogleID := "g-123",
    Role := "pending", Status := "pending", ApprovedBy := none, ApprovedAt := none,
    CreatedAt := ⟨0⟩, UpdatedAt := ⟨0⟩, DeletedAt := none }

/-- A provider that accepts the code `good-code` and returns the profile of the
subject `g-123`. -/
def liveConfig : OAuthConfig :=
  { AuthCodeURL := fun state => state,
    Exchange := fun code => if code = "good-code" then some "access-token" else none,
    GetUserInfo := fun token => if token = "access-token" then some "profile" else none,
    DecodeUser := fun body =>
      if body = "profile" then
        some { ID := "g-123", Email := "new@example.com", Name := "New", Picture := "" }
      else none }

/-- The application right after start: no login pending, no row in `users`. -/
def freshApp : App :=
  { authService := { config := liveConfig, states := [] },
    userHandler := { db := { users := [], failing := false } } }

/-- The context that the mock of `TestAdminRequiredNotAdmin` builds, with the
given role. -/
def contextWithRole (role : String) : Context :=
  ctxSet (ctxSet (ctxSet [] "user_id" (.uint 1)) "user_email" (.str "user@example.com"))
    "user_role" (.str role)

/-- The context of `TestAdminRequiredNoRole`: no `user_role`. -/
def contextWithoutRole : Context :=
  ctxSet (ctxSet [] "user_id" (.uint 1)) "user_email" (.str "user@example.com")

/-- An approved account with the given role. -/
def approvedUser (id : Nat) (role : String) : User :=
  { pendingUser id with Role := role, Status := "approved", ApprovedBy := some 1,
                        ApprovedAt := some ⟨1⟩ }

/-! ## Lemmas on the states map -/

theorem mapGet_mem {m : States} {k : String} {v : Time} (h : mapGet m k = some v) :
    (k, v) ∈ m := by
  induction m with
  | nil => simp [mapGet] at h
  | cons hd tl ih =>
    obtain ⟨k', v'⟩ := hd
    by_cases hk : k' = k
    · simp [mapGet, hk] at h
      simp [hk, h]
    · simp [mapGet, hk] at h
      exact List.mem_cons_of_mem _ (ih h)

theorem mapGet_eq_none {m : States} {k : String} (h : ∀ v, (k, v) ∉ m) :
    mapGet m k = none := by
  cases hg : mapGet m k with
  | none => rfl
  | some v => exact absurd (mapGet_mem hg) (h v)

theorem mapGet_none_not_mem {m : States} {k : String} (h : mapGet m k = none) (v : Time) :
    (k, v) ∉ m := by
  induction m with
  | nil => simp
  | cons hd tl ih =>
    obtain ⟨k', v'⟩ := hd
    by_cases hk : k' = k
    · simp [mapGet, hk] at h
    · simp only [mapGet, hk, if_false] at h
      intro hmem
      rcases List.mem_cons.mp hmem with heq | htl
      · exact hk (by simpa using (congrArg Prod.fst heq).symm)
      · exact ih h htl

theorem mapGet_filter_keep {m : States} {k : String} {v : Time} (p : String × Time → Bool)
    (h : mapGet m k = some v) (hp : p (k, v) = true) :
    mapGet (m.filter p) k = some v := by
  induction m with
  | nil => simp [mapGet] at h
  | cons hd tl ih =>
    obtain ⟨k', v'⟩ := hd
    by_cases hk : k' = k
    · subst hk
      simp [mapGet] at h
      subst h
      simp [List.filter, hp, mapGet]
    · simp only [mapGet, hk, if_false] at h
      cases hq : p (k', v') with
      | true => simp [List.filter, hq, mapGet, hk, ih h]
      | false => simp [List.filter, hq, ih h]

theorem mapGet_filter_none {m : States} {k : String} (p : String × Time → Bool)
    (h : mapGet m k = none) : mapGet (m.filter p) k = none :=
  mapGet_eq_none (fun v hv => mapGet_none_not_mem h v (List.mem_filter.mp hv).1)

theorem mapGet_mapDelete_self (m : States) (k : String) : mapGet (mapDelete m k) k = none :=
  mapGet_eq_none (fun v hv => by simpa [mapDelete] using (List.mem_filter.mp hv).2)

theorem mapGet_mapDelete_ne (m : States) {k k' : String} (h : k' ≠ k) :
    mapGet (mapDelete m k) k' = mapGet m k' := by
  induction m with
  | nil => rfl
  | cons hd tl ih =>
    obtain ⟨k₀, v₀⟩ := hd
    by_cases hk : k₀ = k
    · have hne : k₀ ≠ k' := fun e => h (e ▸ hk)
      have hstep : mapDelete ((k₀, v₀) :: tl) k = mapDelete tl k := by
        simp [mapDelete, List.filter, hk]
      rw [hstep, ih]
      simp [mapGet, hne]
    · have hstep : mapDelete ((k₀, v₀) :: tl) k = (k₀, v₀) :: mapDelete tl k := by
        simp [mapDelete, List.filter, hk]
      rw [hstep]
      by_cases hk' : k₀ = k'
      · simp [mapGet, hk']
      · simp [mapGet, hk', ih]

theorem mapGet_mapSet_self (m : States) (k : String) (v : Time) :
    mapGet (mapSet m k v) k = some v := by
  simp [mapSet, mapGet]

theorem mapGet_mapSet_ne (m : States) {k k' : String} (v : Time) (h : k' ≠ k) :
    mapGet (mapSet m k v) k' = mapGet m k' := by
  have hne : k ≠ k' := fun e => h e.symm
  simp [mapSet, mapGet, hne, mapGet_mapDelete_ne m h]

/-! ## Lemmas on `generateRandomState` -/

theorem toDigitsCore_ne_nil (b fuel n : Nat) (ds : List Char) (h : ds ≠ []) :
    Nat.toDigitsCore b fuel n ds ≠ [] := by
  induction fuel generalizing n ds with
  | zero => simpa [Nat.toDigitsCore] using h
  | succ f ih =>
    simp only [Nat.toDigitsCore]
    split
    · simp
    · exact ih _ _ (by simp)

theorem toDigits_ne_nil (b n : Nat) : Nat.toDigits b n ≠ [] := by
  simp only [Nat.toDigits, Nat.toDigitsCore]
  split
  · simp
  · exact toDigitsCore_ne_nil _ _ _ _ (by simp)

theorem natRepr_ne_empty (n : Nat) : Nat.repr n ≠ "" := by
  intro h
  have hd : (Nat.repr n).data = [] := by rw [h]
  exact toDigits_ne_nil 10 n (by simpa [Nat.repr, List.asString] using hd)

theorem generateRandomState_ne_empty (now : Time) : generateRandomState now ≠ "" := by
  unfold generateRandomState Time.UnixNano
  cases now.nanos with
  | ofNat m => exact natRepr_ne_empty m
  | negSucc m =>
    intro h
    have hd : (toString (Int.negSucc m)).data = [] := by rw [h]
    have : (toString (Int.negSucc m)) = "-" ++ toString (Nat.succ m) := rfl
    rw [this] at hd
    simp at hd


/-! ## Lemmas on the handlers of the state tracker -/

theorem callback_passed_iff (a : AuthService) (now : Time) (state code : String) :
    (HandleGoogleCallback a now state code).2.passedStateCheck = true ↔
      state ≠ "" ∧ ∃ e, mapGet a.states state = some e ∧ now.After e = false := by
  unfold HandleGoogleCallback
  by_cases hs : state = ""
  · simp [hs, CallbackResponse.passedStateCheck]
  · cases hg : mapGet a.states state with
    | none => simp [hs, CallbackResponse.passedStateCheck]
    | some e =>
      cases hn : now.After e with
      | true => simp [hs, hn, CallbackResponse.passedStateCheck]
      | false =>
        simp only [hs, if_false, hn, Bool.false_eq_true]
        repeat' split
        all_goals simp_all [CallbackResponse.passedStateCheck]

theorem callback_states_passed (a : AuthService) (now : Time) (state code : String)
    (h : (HandleGoogleCallback a now state code).2.passedStateCheck = true) :
    (HandleGoogleCallback a now state code).1.states = mapDelete a.states state := by
  obtain ⟨hs, e, hg, hn⟩ := (callback_passed_iff a now state code).mp h
  unfold HandleGoogleCallback
  simp only [hs, if_false, hg, hn, Bool.false_eq_true]
  repeat' split
  all_goals rfl

theorem callback_not_passed (a : AuthService) (now : Time) (state code : String)
    (h : (HandleGoogleCallback a now state code).2.passedStateCheck = false) :
    HandleGoogleCallback a now state code =
      (a, if state = "" then .missingState else .invalidOrExpiredState) := by
  revert h
  unfold HandleGoogleCallback
  by_cases hs : state = ""
  · simp [hs]
  · cases hg : mapGet a.states state with
    | none => simp [hs]
    | some e =>
      cases hn : now.After e with
      | true => simp [hs, hn]
      | false =>
        simp only [hs, if_false, hn, Bool.false_eq_true]
        repeat' split
        all_goals simp_all [CallbackResponse.passedStateCheck]

theorem callback_states_cases (a : AuthService) (now : Time) (state code : String) :
    (HandleGoogleCallback a now state code).1.states = a.states ∨
    (HandleGoogleCallback a now state code).1.states = mapDelete a.states state := by
  cases h : (HandleGoogleCallback a now state code).2.passedStateCheck with
  | true => exact Or.inr (callback_states_passed a now state code h)
  | false => exact Or.inl (by rw [callback_not_passed a now state code h])

theorem callback_get_ne (a : AuthService) (now : Time) {state t : String} (code : String)
    (h : t ≠ state) :
    mapGet (HandleGoogleCallback a now state code).1.states t = mapGet a.states t := by
  rcases callback_states_cases a now state code with hc | hc
  · rw [hc]
  · rw [hc, mapGet_mapDelete_ne _ h]

theorem callback_mem (a : AuthService) (now : Time) (state code : String)
    {e : String × Time} (h : e ∈ (HandleGoogleCallback a now state code).1.states) :
    e ∈ a.states := by
  rcases callback_states_cases a now state code with hc | hc
  · rwa [hc] at h
  · rw [hc] at h
    exact (List.mem_filter.mp h).1

theorem step_keeps_fresh (t : String) (t0 t1 : Time)
    (hwin : t1.nanos ≤ t0.nanos + 5 * Minute) (a : AuthService) (ev : Event)
    (hev : t0.nanos ≤ ev.time.nanos ∧ ev.time.nanos ≤ t1.nanos ∧ ev.carries ≠ some t)
    (ha : ∃ e, mapGet a.states t = some e ∧ t1.nanos ≤ e.nanos) :
    ∃ e, mapGet (step a ev).states t = some e ∧ t1.nanos ≤ e.nanos := by
  obtain ⟨e, hg, he⟩ := ha
  cases ev with
  | login nowState nowStore =>
    by_cases hk : t = generateRandomState nowState
    · refine ⟨nowStore.Add (5 * Minute), ?_, ?_⟩
      · simp only [step, HandleGoogleLogin]
        rw [hk]
        exact mapGet_mapSet_self _ _ _
      · have h1 := hev.1
        simp only [Event.time] at h1
        simp only [Time.Add]
        omega
    · refine ⟨e, ?_, he⟩
      simp only [step, HandleGoogleLogin]
      rw [mapGet_mapSet_ne _ _ hk]
      exact hg
  | callback now state code =>
    have hne : t ≠ state := fun h => hev.2.2 (by simp [Event.carries, h])
    exact ⟨e, by simp only [step]; rw [callback_get_ne a now code hne]; exact hg, he⟩
  | sweep now =>
    refine ⟨e, ?_, he⟩
    simp only [step, cleanupExpiredStates]
    apply mapGet_filter_keep _ hg
    have h2 := hev.2.1
    simp only [Event.time] at h2
    simp only [Time.After, Bool.not_eq_true', decide_eq_false_iff_not, not_lt]
    omega

theorem run_keeps_fresh (t : String) (t0 t1 : Time)
    (hwin : t1.nanos ≤ t0.nanos + 5 * Minute) (evs : List Event) :
    ∀ a : AuthService,
      (∀ ev ∈ evs, t0.nanos ≤ ev.time.nanos ∧ ev.time.nanos ≤ t1.nanos ∧ ev.carries ≠ some t) →
      (∃ e, mapGet a.states t = some e ∧ t1.nanos ≤ e.nanos) →
      ∃ e, mapGet (run a evs).states t = some e ∧ t1.nanos ≤ e.nanos := by
  induction evs with
  | nil => intro a _ ha; exact ha
  | cons ev rest ih =>
    intro a hevs ha
    have h1 := step_keeps_fresh t t0 t1 hwin a ev (hevs ev (List.mem_cons_self _ _)) ha
    exact ih (step a ev) (fun ev' hm => hevs ev' (List.mem_cons_of_mem _ hm)) h1

theorem step_keeps_absent (t : String) (a : AuthService) (ev : Event)
    (hev : ev.issues ≠ some t) (ha : mapGet a.states t = none) :
    mapGet (step a ev).states t = none := by
  cases ev with
  | login nowState nowStore =>
    have hk : t ≠ generateRandomState nowState := fun h => hev (by simp [Event.issues, h])
    simp only [step, HandleGoogleLogin]
    rw [mapGet_mapSet_ne _ _ hk]
    exact ha
  | callback now state code =>
    simp only [step]
    exact mapGet_eq_none (fun v hv => mapGet_none_not_mem ha v (callback_mem a now state code hv))
  | sweep now =>
    simp only [step, cleanupExpiredStates]
    exact mapGet_filter_none _ ha

theorem run_keeps_absent (t : String) (evs : List Event) :
    ∀ a : AuthService, (∀ ev ∈ evs, ev.issues ≠ some t) → mapGet a.states t = none →
      mapGet (run a evs).states t = none := by
  induction evs with
  | nil => intro a _ ha; exact ha
  | cons ev rest ih =>
    intro a hevs ha
    exact ih (step a ev) (fun ev' hm => hevs ev' (List.mem_cons_of_mem _ hm))
      (step_keeps_absent t a ev (hevs ev (List.mem_cons_self _ _)) ha)

theorem callback_absent (a : AuthService) (now : Time) {state : String} (code : String)
    (hs : state ≠ "") (h : mapGet a.states state = none) :
    HandleGoogleCallback a now state code = (a, .invalidOrExpiredState) := by
  simp [HandleGoogleCallback, hs, h]

theorem callback_expired (a : AuthService) (now : Time) {state : String} (code : String)
    {e : Time} (hs : state ≠ "") (h : mapGet a.states state = some e)
    (hn : e.nanos < now.nanos) :
    HandleGoogleCallback a now state code = (a, .invalidOrExpiredState) := by
  simp [HandleGoogleCallback, hs, h, Time.After, hn]

/-! ## Properties of the state tracker -/

/-- C1. Single use of a correlation token, sequentially: after a login that
stores the state `t` at instant `t0`, and any requests and sweeps in between that
carry no callback for `t`, the callback carrying `t` at an instant `t1` no later
than `t0 + 5 min` passes the state check and leaves no entry for `t`; after any
further requests and sweeps in which no login stores `t` again, a callback carrying
`t` is answered with "Invalid or expired state". -/
theorem state_single_use (a : AuthService) (nowState t0 t1 t2 : Time)
    (pre post : List Event) (code1 code2 : String)
    (hwin : t1.nanos ≤ t0.nanos + 5 * Minute)
    (hpre : ∀ ev ∈ pre, t0.nanos ≤ ev.time.nanos ∧ ev.time.nanos ≤ t1.nanos ∧
      ev.carries ≠ some (generateRandomState nowState))
    (hpost : ∀ ev ∈ post, ev.issues ≠ some (generateRandomState nowState)) :
    (HandleGoogleCallback (run (HandleGoogleLogin a nowState t0).1 pre) t1
        (generateRandomState nowState) code1).2.passedStateCheck = true ∧
    mapGet (HandleGoogleCallback (run (HandleGoogleLogin a nowState t0).1 pre) t1
        (generateRandomState nowState) code1).1.states (generateRandomState nowState) = none ∧
    (HandleGoogleCallback
        (run (HandleGoogleCallback (run (HandleGoogleLogin a nowState t0).1 pre) t1
          (generateRandomState nowState) code1).1 post)
        t2 (generateRandomState nowState) code2).2 = .invalidOrExpiredState := by
  have hne := generateRandomState_ne_empty nowState
  have hlogin : ∃ e, mapGet (HandleGoogleLogin a nowState t0).1.states
      (generateRandomState nowState) = some e ∧ t1.nanos ≤ e.nanos :=
    ⟨t0.Add (5 * Minute), mapGet_mapSet_self _ _ _, by simp only [Time.Add]; omega⟩
  obtain ⟨e, hg, he⟩ := run_keeps_fresh _ t0 t1 hwin pre _ hpre hlogin
  have hpass : (HandleGoogleCallback (run (HandleGoogleLogin a nowState t0).1 pre) t1
      (generateRandomState nowState) code1).2.passedStateCheck = true :=
    (callback_passed_iff _ _ _ _).mpr
      ⟨hne, e, hg, by simp only [Time.After, decide_eq_false_iff_not, not_lt]; exact he⟩
  have hgone : mapGet (HandleGoogleCallback (run (HandleGoogleLogin a nowState t0).1 pre) t1
      (generateRandomState nowState) code1).1.states (generateRandomState nowState) = none := by
    rw [callback_states_passed _ _ _ _ hpass]
    exact mapGet_mapDelete_self _ _
  refine ⟨hpass, hgone, ?_⟩
  rw [callback_absent _ t2 code2 hne (run_keeps_absent _ post _ hpost hgone)]


/-- Witness of `state_single_use`: login at 1000 ns, a sweep at 1500 ns, the
callback at 2000 ns, a later login and the repeated callback at 3000 ns. -/
theorem state_single_use_witness :
    (HandleGoogleCallback (run (HandleGoogleLogin freshService ⟨1000⟩ ⟨1000⟩).1 [.sweep ⟨1500⟩])
        ⟨2000⟩ (generateRandomState ⟨1000⟩) "code").2.passedStateCheck = true ∧
    mapGet (HandleGoogleCallback
        (run (HandleGoogleLogin freshService ⟨1000⟩ ⟨1000⟩).1 [.sweep ⟨1500⟩])
        ⟨2000⟩ (generateRandomState ⟨1000⟩) "code").1.states (generateRandomState ⟨1000⟩) = none ∧
    (HandleGoogleCallback
        (run (HandleGoogleCallback
          (run (HandleGoogleLogin freshService ⟨1000⟩ ⟨1000⟩).1 [.sweep ⟨1500⟩])
          ⟨2000⟩ (generateRandomState ⟨1000⟩) "code").1 [.login ⟨5000⟩ ⟨5000⟩])
        ⟨3000⟩ (generateRandomState ⟨1000⟩) "code").2 = .invalidOrExpiredState :=
  state_single_use freshService ⟨1000⟩ ⟨1000⟩ ⟨2000⟩ ⟨3000⟩ [.sweep ⟨1500⟩]
    [.login ⟨5000⟩ ⟨5000⟩] "code" "code" (by decide)
    (by
      intro ev hev
      rw [List.mem_singleton] at hev
      subst hev
      decide)
    (by
      intro ev hev
      rw [List.mem_singleton] at hev
      subst hev
      decide)


theorem step_keeps_bound (t : String) (bound : Int) (a : AuthService) (ev : Event)
    (hev : ev.issues ≠ some t) (ha : ∀ e, (t, e) ∈ a.states → e.nanos ≤ bound) :
    ∀ e, (t, e) ∈ (step a ev).states → e.nanos ≤ bound := by
  intro e hmem
  cases ev with
  | login nowState nowStore =>
    have hk : t ≠ generateRandomState nowState := fun h => hev (by simp [Event.issues, h])
    simp only [step, HandleGoogleLogin, mapSet, mapDelete] at hmem
    rcases List.mem_cons.mp hmem with heq | htl
    · exact absurd (congrArg Prod.fst heq) hk
    · exact ha e (List.mem_filter.mp htl).1
  | callback now state code =>
    exact ha e (callback_mem a now state code hmem)
  | sweep now =>
    simp only [step, cleanupExpiredStates] at hmem
    exact ha e (List.mem_filter.mp hmem).1

theorem run_keeps_bound (t : String) (bound : Int) (evs : List Event) :
    ∀ a : AuthService, (∀ ev ∈ evs, ev.issues ≠ some t) →
      (∀ e, (t, e) ∈ a.states → e.nanos ≤ bound) →
      ∀ e, (t, e) ∈ (run a evs).states → e.nanos ≤ bound := by
  induction evs with
  | nil => intro a _ ha; exact ha
  | cons ev rest ih =>
    intro a hevs ha
    exact ih (step a ev) (fun ev' hm => hevs ev' (List.mem_cons_of_mem _ hm))
      (step_keeps_bound t bound a ev (hevs ev (List.mem_cons_self _ _)) ha)

theorem login_bound (a : AuthService) (nowState nowStore : Time) :
    ∀ e, (generateRandomState nowState, e) ∈ (HandleGoogleLogin a nowState nowStore).1.states →
      e.nanos ≤ nowStore.nanos + 5 * Minute := by
  intro e hmem
  simp only [HandleGoogleLogin, mapSet, mapDelete] at hmem
  rcases List.mem_cons.mp hmem with heq | htl
  · have : e = nowStore.Add (5 * Minute) := congrArg Prod.snd heq
    rw [this]
    simp [Time.Add]
  · have := (List.mem_filter.mp htl).2
    simp at this

/-- C3. An expired correlation token is rejected: after a login that stores the
state `t` at instant `t0`, and any requests and sweeps (at any instants) in which
no login stores `t` again, a callback carrying `t` at an instant strictly later
than `t0 + 5 min` is answered with "Invalid or expired state" and changes nothing,
whether a sweep has removed the entry or not. -/
theorem expired_state_rejected (a : AuthService) (nowState t0 now : Time)
    (evs : List Event) (code : String)
    (hlate : t0.nanos + 5 * Minute < now.nanos)
    (hevs : ∀ ev ∈ evs, ev.issues ≠ some (generateRandomState nowState)) :
    HandleGoogleCallback (run (HandleGoogleLogin a nowState t0).1 evs) now
        (generateRandomState nowState) code =
      (run (HandleGoogleLogin a nowState t0).1 evs, .invalidOrExpiredState) := by
  have hne := generateRandomState_ne_empty nowState
  have hb := run_keeps_bound _ (t0.nanos + 5 * Minute) evs _ hevs (login_bound a nowState t0)
  cases hg : mapGet (run (HandleGoogleLogin a nowState t0).1 evs).states
      (generateRandomState nowState) with
  | none => exact callback_absent _ now code hne hg
  | some e =>
    have he := hb e (mapGet_mem hg)
    exact callback_expired _ now code hne hg (by omega)

/-- Witness of `expired_state_rejected`: login at 0 ns, no sweep, callback one
nanosecond after the five minutes. -/
theorem expired_state_rejected_witness :
    HandleGoogleCallback (run (HandleGoogleLogin freshService ⟨0⟩ ⟨0⟩).1 []) ⟨300000000001⟩
        (generateRandomState ⟨0⟩) "code" =
      (run (HandleGoogleLogin freshService ⟨0⟩ ⟨0⟩).1 [], .invalidOrExpiredState) :=
  expired_state_rejected freshService ⟨0⟩ ⟨0⟩ ⟨300000000001⟩ [] "code" (by decide)
    (by intro ev hev; cases hev)

/-- C4, as stated, fails at the expiry instant itself: the state stored by a
login at 0 ns expires at 300000000000 ns, and the callback carrying it at exactly
that instant passes the state check and consumes it. -/
theorem callback_at_expiry_instant_passes :
    mapGet (HandleGoogleLogin freshService ⟨0⟩ ⟨0⟩).1.states "0" = some ⟨300000000000⟩ ∧
    (HandleGoogleCallback (HandleGoogleLogin freshService ⟨0⟩ ⟨0⟩).1 ⟨300000000000⟩
        "0" "code").2.rejected = false ∧
    (HandleGoogleCallback (HandleGoogleLogin freshService ⟨0⟩ ⟨0⟩).1 ⟨300000000000⟩
        "0" "code").1.states = [] := by
  decide

/-- C4, amended. For a stored state `t` with expiry instant `e`, the callback
carrying `t` is rejected exactly when `t` is empty or the instant of the check is
strictly later than `e`: it is accepted up to and including the expiry instant. -/
theorem state_accepted_until_expiry (a : AuthService) (now e : Time) (t code : String)
    (hg : mapGet a.states t = some e) :
    (HandleGoogleCallback a now t code).2.rejected = true ↔ (t = "" ∨ e.nanos < now.nanos) := by
  have hp := callback_passed_iff a now t code
  have hrej : (HandleGoogleCallback a now t code).2.rejected = true ↔
      ¬ (HandleGoogleCallback a now t code).2.passedStateCheck = true := by
    simp [CallbackResponse.rejected]
  rw [hrej, hp]
  constructor
  · intro h
    by_cases ht : t = ""
    · exact Or.inl ht
    · refine Or.inr ?_
      by_contra hn
      exact h ⟨ht, e, hg, by simp only [Time.After, decide_eq_false_iff_not]; exact hn⟩
  · rintro (ht | hn) ⟨ht', e', hg', hle⟩
    · exact ht' ht
    · rw [hg] at hg'
      cases hg'
      simp only [Time.After, decide_eq_false_iff_not] at hle
      exact hle hn

/-- Witness of `state_accepted_until_expiry`: the entry stored by a login at 0 ns,
checked one nanosecond after its expiry. -/
theorem state_accepted_until_expiry_witness :
    (HandleGoogleCallback (HandleGoogleLogin freshService ⟨0⟩ ⟨0⟩).1 ⟨300000000001⟩
        "0" "code").2.rejected = true ↔
      ("0" = "" ∨ (⟨300000000000⟩ : Time).nanos < (⟨300000000001⟩ : Time).nanos) :=
  state_accepted_until_expiry (HandleGoogleLogin freshService ⟨0⟩ ⟨0⟩).1 ⟨300000000001⟩
    ⟨300000000000⟩ "0" "code" (by decide)

/-- C5: the state value is the decimal rendering of the clock reading. Two calls
of `generateRandomState` at the same reading return the same string, the string
is computed from the reading alone, and it is what the login hands out and stores. -/
theorem generateRandomState_is_clock_reading :
    generateRandomState ⟨1700000000123456789⟩ = "1700000000123456789" ∧
    (HandleGoogleLogin freshService ⟨1700000000123456789⟩ ⟨1700000000123456790⟩).2.cookie
      = "1700000000123456789" ∧
    (HandleGoogleLogin
      (HandleGoogleLogin freshService ⟨1700000000123456789⟩ ⟨1700000000123456790⟩).1
      ⟨1700000000123456789⟩ ⟨1700000000123456791⟩).1.states
      = [("1700000000123456789", ⟨1700000300123456791⟩)] := by
  decide


/-! ## Concurrent callbacks -/

/-- A request thread that runs its three steps with no other thread in between
does what `HandleGoogleCallback` does: same map afterwards, and it ends in
`consumed` exactly when the sequential handler passes the state check. -/
theorem thread_alone_eq_callback (a : AuthService) (now : Time) (state code : String) :
    (runSchedule ⟨a.states, [CallbackPC.enter state]⟩ [(0, now), (0, now), (0, now)]).states
      = (HandleGoogleCallback a now state code).1.states ∧
    ((runSchedule ⟨a.states, [CallbackPC.enter state]⟩
        [(0, now), (0, now), (0, now)]).threads = [.consumed] ↔
      (HandleGoogleCallback a now state code).2.passedStateCheck = true) := by
  by_cases hs : state = ""
  · subst hs
    simp [runSchedule, sysStep, CallbackPC.enter, threadStep, HandleGoogleCallback,
      CallbackResponse.passedStateCheck]
  · cases hg : mapGet a.states state with
    | none =>
      simp [runSchedule, sysStep, CallbackPC.enter, threadStep, HandleGoogleCallback,
        CallbackResponse.passedStateCheck, hs, hg]
    | some e =>
      cases hn : now.After e with
      | true =>
        simp [runSchedule, sysStep, CallbackPC.enter, threadStep, HandleGoogleCallback,
          CallbackResponse.passedStateCheck, hs, hg, hn]
      | false =>
        have hp : (HandleGoogleCallback a now state code).2.passedStateCheck = true :=
          (callback_passed_iff a now state code).mpr ⟨hs, e, hg, hn⟩
        rw [callback_states_passed a now state code hp, hp]
        simp [runSchedule, sysStep, CallbackPC.enter, threadStep, hs, hg, hn]

/-- C2: two concurrent callbacks carrying the state `"0"` that a login has just
stored. Both take the lookup under the read lock before either takes the write
lock; both pass the expiry check and both go on to the code exchange. -/
theorem concurrent_callbacks_both_pass :
    runSchedule
        ⟨(HandleGoogleLogin freshService ⟨0⟩ ⟨0⟩).1.states,
         [CallbackPC.enter "0", CallbackPC.enter "0"]⟩
        [(0, ⟨10⟩), (1, ⟨11⟩), (0, ⟨12⟩), (1, ⟨13⟩), (0, ⟨14⟩), (1, ⟨15⟩)]
      = ⟨[], [.consumed, .consumed]⟩ ∧
    (runSchedule
        ⟨(HandleGoogleLogin freshService ⟨0⟩ ⟨0⟩).1.states,
         [CallbackPC.enter "0", CallbackPC.enter "0"]⟩
        [(0, ⟨10⟩), (1, ⟨11⟩), (0, ⟨12⟩), (1, ⟨13⟩), (0, ⟨14⟩), (1, ⟨15⟩)]).passedCount = 2 := by
  decide


/-! ## Properties of the credential service -/

theorem truncate_second_idem (t : Time) :
    NewNumericDate (NewNumericDate t) = NewNumericDate t := by
  have hpos : ¬ ((1000000000 : Int) ≤ 0) := by decide
  simp only [NewNumericDate, TimePrecision, Second, Time.Truncate, hpos, if_false]
  congr 1
  omega

theorem newNumericDate_nanos (t : Time) :
    (NewNumericDate t).nanos = t.nanos / Second * Second := by
  have hpos : ¬ ((1000000000 : Int) ≤ 0) := by decide
  simp only [NewNumericDate, TimePrecision, Second, Time.Truncate, hpos, if_false]
  omega

theorem newNumericDate_le (t : Time) : (NewNumericDate t).nanos ≤ t.nanos := by
  have hpos : ¬ ((1000000000 : Int) ≤ 0) := by decide
  simp only [NewNumericDate, TimePrecision, Second, Time.Truncate, hpos, if_false]
  omega

theorem getSigningMethod_HS256 : GetSigningMethod "HS256" = some (.HMAC "HS256") := by
  decide

theorem generateToken_eq (cr : Crypto) (env : String) (nowExp nowIat : Time)
    (userID : Nat) (email role : String) :
    GenerateToken cr env nowExp nowIat userID email role =
      .ok (.jwt (some "HS256")
        { UserID := userID, Email := email, Role := role,
          Issuer := "", Subject := "", Audience := [],
          ExpiresAt := some (NewNumericDate (nowExp.Add (24 * Hour))),
          NotBefore := none,
          IssuedAt := some (NewNumericDate nowIat),
          ID := "" }
        (cr.hmac "HS256" (jwtSecret env) (some "HS256",
          { UserID := userID, Email := email, Role := role,
            Issuer := "", Subject := "", Audience := [],
            ExpiresAt := some (NewNumericDate (nowExp.Add (24 * Hour))),
            NotBefore := none,
            IssuedAt := some (NewNumericDate nowIat),
            ID := "" }))) := by
  rfl

/-- C6. Credential round trip: with the same `JWT_SECRET` in force and the
validation instant before the credential's expiry, `ValidateToken` applied to the
token that `GenerateToken` returns gives no error and claims whose `UserID`,
`Email` and `Role` are the inputs (any role string, `user`, `admin` and
`pending` included), with the expiry and issue dates the token carries. -/
theorem token_round_trip (cr : Crypto) (env : String) (nowExp nowIat now : Time)
    (userID : Nat) (email role : String)
    (hbefore : now.nanos < (NewNumericDate (nowExp.Add (24 * Hour))).nanos) :
    ∃ tok claims,
      GenerateToken cr env nowExp nowIat userID email role = .ok tok ∧
      ValidateToken cr env now tok = .ok claims ∧
      claims.UserID = userID ∧ claims.Email = email ∧ claims.Role = role ∧
      claims.ExpiresAt = some (NewNumericDate (nowExp.Add (24 * Hour))) ∧
      claims.IssuedAt = some (NewNumericDate nowIat) := by
  refine ⟨_,
    { UserID := userID, Email := email, Role := role,
      Issuer := "", Subject := "", Audience := [],
      ExpiresAt := some (NewNumericDate (nowExp.Add (24 * Hour))),
      NotBefore := none,
      IssuedAt := some (NewNumericDate nowIat),
      ID := "" },
    generateToken_eq cr env nowExp nowIat userID email role, ?_, rfl, rfl, rfl, rfl, rfl⟩
  simp [ValidateToken, ParseWithClaims, getSigningMethod_HS256, keyFunc,
    SigningMethod.Verify, decodeClaims, truncate_second_idem, validateClaims,
    Time.Before, hbefore]


/-- Witness of `token_round_trip`: the token of `TestValidateToken`, validated one
microsecond after it was issued. -/
theorem token_round_trip_witness :
    ∃ tok claims,
      GenerateToken toyCrypto "test-secret-key" ⟨1000⟩ ⟨1000⟩ 1 "test@example.com" "user"
        = .ok tok ∧
      ValidateToken toyCrypto "test-secret-key" ⟨2000⟩ tok = .ok claims ∧
      claims.UserID = 1 ∧ claims.Email = "test@example.com" ∧ claims.Role = "user" ∧
      claims.ExpiresAt = some (NewNumericDate ((⟨1000⟩ : Time).Add (24 * Hour))) ∧
      claims.IssuedAt = some (NewNumericDate ⟨1000⟩) :=
  token_round_trip toyCrypto "test-secret-key" ⟨1000⟩ ⟨1000⟩ ⟨2000⟩ 1 "test@example.com" "user"
    (by decide)

/-- C7, as stated, fails when the two clock readings of `GenerateToken` fall in
different seconds: with the first reading at 0.999999999 s and the second at
1.000000000 s the token carries ExpiresAt = 86400 s and IssuedAt = 1 s, one second
short of 24 hours apart. -/
theorem token_lifetime_across_second_boundary :
    (issuedClaims (GenerateToken toyCrypto "" ⟨999999999⟩ ⟨1000000000⟩ 1
        "test@example.com" "user")).map (fun c => (c.ExpiresAt, c.IssuedAt))
      = some (some ⟨86400000000000⟩, some ⟨1000000000⟩) ∧
    (86400000000000 : Int) ≠ 1000000000 + 24 * Hour ∧
    (86400000000000 : Int) = 1000000000 + 24 * Hour - Second := by
  decide

/-- C7, amended. In every credential produced by `GenerateToken`, ExpiresAt is the
first clock reading plus 24 hours and IssuedAt is the second clock reading, each
cut to whole seconds; so ExpiresAt is IssuedAt plus 24 hours minus one second for
every second boundary between the two readings, and exactly IssuedAt plus 24 hours
when both readings fall in the same second. -/
theorem token_lifetime (cr : Crypto) (env : String) (nowExp nowIat : Time)
    (userID : Nat) (email role : String) :
    ∃ claims exp iat,
      issuedClaims (GenerateToken cr env nowExp nowIat userID email role) = some claims ∧
      claims.ExpiresAt = some exp ∧ claims.IssuedAt = some iat ∧
      exp.nanos = nowExp.nanos / Second * Second + 24 * Hour ∧
      iat.nanos = nowIat.nanos / Second * Second ∧
      exp.nanos =
        iat.nanos + 24 * Hour - (nowIat.nanos / Second - nowExp.nanos / Second) * Second := by
  refine ⟨_, _, _, by rw [generateToken_eq]; rfl, rfl, rfl, ?_, newNumericDate_nanos _, ?_⟩
  · rw [newNumericDate_nanos]
    simp only [Time.Add, Hour, Minute, Second]
    omega
  · rw [newNumericDate_nanos, newNumericDate_nanos]
    simp only [Time.Add, Hour, Minute, Second]
    omega

/-- C8, as stated, fails for the other HMAC algorithms: a token whose header
names HS384, signed with HS384 under the configured secret, is accepted. -/
theorem hs384_token_accepted :
    SignedString toyCrypto (.HMAC "HS384") (plainClaims 7 "eve@example.com" "admin" none)
        (jwtSecret "")
      = .ok (.jwt (some "HS384") (plainClaims 7 "eve@example.com" "admin" none)
          (toyCrypto.hmac "HS384" (jwtSecret "")
            (some "HS384", plainClaims 7 "eve@example.com" "admin" none))) ∧
    ValidateToken toyCrypto "" ⟨0⟩
        (.jwt (some "HS384") (plainClaims 7 "eve@example.com" "admin" none)
          (toyCrypto.hmac "HS384" (jwtSecret "")
            (some "HS384", plainClaims 7 "eve@example.com" "admin" none)))
      = .ok (plainClaims 7 "eve@example.com" "admin" none) := by
  constructor <;> rfl

/-- C8, amended. `ValidateToken` accepts a token only if its header names one of
the HMAC algorithms HS256, HS384 or HS512: every token whose header names another
algorithm (RS256, none, ...) or no algorithm is rejected as unverifiable, whatever
its signature and whatever the other verifiers would say. -/
theorem non_hmac_alg_rejected (cr : Crypto) (env : String) (now : Time)
    (alg : Option String) (claims : Claims) (signature : String)
    (h : alg ≠ some "HS256" ∧ alg ≠ some "HS384" ∧ alg ≠ some "HS512") :
    ValidateToken cr env now (.jwt alg claims signature) = .error .unverifiable := by
  cases alg with
  | none => rfl
  | some a =>
    have h1 : a ≠ "HS256" := fun e => h.1 (by rw [e])
    have h2 : a ≠ "HS384" := fun e => h.2.1 (by rw [e])
    have h3 : a ≠ "HS512" := fun e => h.2.2 (by rw [e])
    simp only [ValidateToken, ParseWithClaims, GetSigningMethod, h1, h2, h3, or_self, if_false]
    split_ifs <;> rfl

/-- Witness of `non_hmac_alg_rejected`: a token that names RS256. -/
theorem non_hmac_alg_rejected_witness :
    ValidateToken toyCrypto "" ⟨0⟩
        (.jwt (some "RS256") (plainClaims 7 "eve@example.com" "admin" none) "forged")
      = .error .unverifiable :=
  non_hmac_alg_rejected toyCrypto "" ⟨0⟩ (some "RS256")
    (plainClaims 7 "eve@example.com" "admin" none) "forged" (by decide)

theorem validateClaims_expired (now exp : Time) (c : Claims)
    (hexp : c.ExpiresAt = some exp) (hlt : exp.nanos < now.nanos) :
    ∃ nvy, validateClaims now (decodeClaims c) = .error (.invalidClaims true nvy) := by
  have hle := newNumericDate_le exp
  have hb : now.Before (NewNumericDate exp) = false := by
    simp only [Time.Before, decide_eq_false_iff_not, not_lt]
    omega
  simp only [validateClaims, decodeClaims, hexp, Option.map, hb, Bool.not_false, Bool.true_or,
    if_true]
  exact ⟨_, rfl⟩

/-- C9. An expired credential is rejected: for every token whose ExpiresAt claim
lies before the instant of validation, `ValidateToken` returns an error and no
claims; when the token is correctly signed with HS256 under the configured secret,
the error is the claims error with the expiry flag set. -/
theorem expired_credential_rejected (cr : Crypto) (env : String) (now exp : Time)
    (alg : Option String) (claims : Claims) (signature : String)
    (hexp : claims.ExpiresAt = some exp) (hlt : exp.nanos < now.nanos) :
    (∃ e, ValidateToken cr env now (.jwt alg claims signature) = .error e) ∧
    (∃ nvy, ValidateToken cr env now
        (.jwt (some "HS256") claims (cr.hmac "HS256" (jwtSecret env) (some "HS256", claims)))
      = .error (.invalidClaims true nvy)) := by
  obtain ⟨nvy, hv⟩ := validateClaims_expired now exp claims hexp hlt
  constructor
  · cases alg with
    | none => exact ⟨_, rfl⟩
    | some a =>
      cases hm : GetSigningMethod a with
      | none => exact ⟨.unverifiable, by simp [ValidateToken, ParseWithClaims, hm]⟩
      | some m =>
        cases hk : keyFunc (jwtSecret env) m with
        | error e => exact ⟨e, by simp [ValidateToken, ParseWithClaims, hm, hk]⟩
        | ok key =>
          cases hver : m.Verify cr (some a, claims) signature key with
          | false =>
            exact ⟨.signatureInvalid, by simp [ValidateToken, ParseWithClaims, hm, hk, hver]⟩
          | true =>
            exact ⟨.invalidClaims true nvy, by
              simp [ValidateToken, ParseWithClaims, hm, hk, hver, hv]⟩
  · exact ⟨nvy, by
      simp [ValidateToken, ParseWithClaims, getSigningMethod_HS256, keyFunc,
        SigningMethod.Verify, hv]⟩

/-- Witness of `expired_credential_rejected`: a token signed with HS256 under the
default secret, expired at 1 s and validated at 2 s. -/
theorem expired_credential_rejected_witness :
    (∃ e, ValidateToken toyCrypto "" ⟨2000000000⟩
        (.jwt (some "HS256") (plainClaims 1 "test@example.com" "user" (some ⟨1000000000⟩))
          (toyCrypto.hmac "HS256" (jwtSecret "")
            (some "HS256", plainClaims 1 "test@example.com" "user" (some ⟨1000000000⟩))))
      = .error e) ∧
    (∃ nvy, ValidateToken toyCrypto "" ⟨2000000000⟩
        (.jwt (some "HS256") (plainClaims 1 "test@example.com" "user" (some ⟨1000000000⟩))
          (toyCrypto.hmac "HS256" (jwtSecret "")
            (some "HS256", plainClaims 1 "test@example.com" "user" (some ⟨1000000000⟩))))
      = .error (.invalidClaims true nvy)) :=
  expired_credential_rejected toyCrypto "" ⟨2000000000⟩ ⟨1000000000⟩ (some "HS256")
    (plainClaims 1 "test@example.com" "user" (some ⟨1000000000⟩))
    (toyCrypto.hmac "HS256" (jwtSecret "")
      (some "HS256", plainClaims 1 "test@example.com" "user" (some ⟨1000000000⟩)))
    rfl (by decide)


/-! ## Properties of the user lifecycle handlers -/

theorem db_update_ok (db : DB) (now : Time) (id : Nat) (assign : User → User)
    (hdb : db.failing = false) :
    db.Update now id assign =
      ({ db with
          users := db.users.map (fun u =>
            if DB.selects id u then { (assign u) with UpdatedAt := now } else u) },
       { Error := false, RowsAffected := (db.users.filter (DB.selects id)).length }) := by
  simp [DB.Update, hdb]

theorem rows_affected_pos (db : DB) (id : Nat) (u : User) (hu : u ∈ db.users)
    (hsel : u.ID = id ∧ u.DeletedAt = none) :
    (db.users.filter (DB.selects id)).length ≠ 0 := by
  have hmem : u ∈ db.users.filter (DB.selects id) :=
    List.mem_filter.mpr ⟨hu, by simp [DB.selects, hsel.1, hsel.2]⟩
  intro h0
  rw [List.length_eq_zero] at h0
  rw [h0] at hmem
  cases hmem

/-- C10, as stated, fails: `UpdateUserRole` on a pending account with the
requested role `admin` answers 200 and the account, still pending, has role
`admin`. -/
theorem role_change_on_pending_account :
    UpdateUserRole ⟨⟨[pendingUser 1], false⟩⟩ ⟨5⟩ "1" (some "admin") =
      (⟨⟨[{ pendingUser 1 with Role := "admin", UpdatedAt := ⟨5⟩ }], false⟩⟩,
       ⟨200, false, "User role updated successfully"⟩) ∧
    (pendingUser 1).Status = "pending" ∧ (pendingUser 1).Role = "pending" := by
  decide

/-- C10, amended. `UpdateUserRole` does not look at the status of the account: for
every account `u` in the table that is not soft-deleted, whatever its status, and
every requested role `user` or `admin`, with the database answering, the handler
reports success and the table afterwards has each row of that id with the
requested role (and a fresh `updated_at`), its status and every other row being
as before. -/
theorem updateUserRole_any_status (h : UserHandler) (now : Time) (idParam : String)
    (id : Nat) (role : String) (u : User)
    (hid : ParseUint32 idParam = some id)
    (hrole : role = "user" ∨ role = "admin")
    (hdb : h.db.failing = false)
    (hu : u ∈ h.db.users) (hsel : u.ID = id ∧ u.DeletedAt = none) :
    (UpdateUserRole h now idParam (some role)).2 =
      ⟨200, false, "User role updated successfully"⟩ ∧
    (UpdateUserRole h now idParam (some role)).1.db.users =
      h.db.users.map (fun v =>
        if DB.selects id v then { v with Role := role, UpdatedAt := now } else v) ∧
    { u with Role := role, UpdatedAt := now } ∈
      (UpdateUserRole h now idParam (some role)).1.db.users := by
  have hne : role ≠ "" := by rcases hrole with r | r <;> (rw [r]; decide)
  have hvalid : ¬ (role ≠ "user" ∧ role ≠ "admin") := by
    rintro ⟨h1, h2⟩
    rcases hrole with r | r
    · exact h1 r
    · exact h2 r
  have hrows := rows_affected_pos h.db id u hu hsel
  have hrun : UpdateUserRole h now idParam (some role) =
      (⟨{ h.db with
          users := h.db.users.map (fun v =>
            if DB.selects id v then { v with Role := role, UpdatedAt := now } else v) }⟩,
       ⟨200, false, "User role updated successfully"⟩) := by
    simp only [UpdateUserRole, hid, bindRole, hne, if_false, hvalid,
      db_update_ok h.db now id _ hdb, hrows, Bool.false_eq_true]
  rw [hrun]
  refine ⟨rfl, rfl, ?_⟩
  refine List.mem_map.mpr ⟨u, hu, ?_⟩
  simp [DB.selects, hsel.1, hsel.2]

/-- Witness of `updateUserRole_any_status`: a rejected account is given the role
`user`. -/
theorem updateUserRole_any_status_witness :
    (UpdateUserRole ⟨⟨[{ pendingUser 3 with Status := "rejected" }], false⟩⟩ ⟨9⟩ "3"
        (some "user")).2 = ⟨200, false, "User role updated successfully"⟩ ∧
    (UpdateUserRole ⟨⟨[{ pendingUser 3 with Status := "rejected" }], false⟩⟩ ⟨9⟩ "3"
        (some "user")).1.db.users =
      [{ pendingUser 3 with Status := "rejected" }].map (fun v =>
        if DB.selects 3 v then { v with Role := "user", UpdatedAt := ⟨9⟩ } else v) ∧
    { ({ pendingUser 3 with Status := "rejected" } : User) with
        Role := "user", UpdatedAt := ⟨9⟩ } ∈
      (UpdateUserRole ⟨⟨[{ pendingUser 3 with Status := "rejected" }], false⟩⟩ ⟨9⟩ "3"
        (some "user")).1.db.users :=
  updateUserRole_any_status ⟨⟨[{ pendingUser 3 with Status := "rejected" }], false⟩⟩ ⟨9⟩ "3" 3
    "user" { pendingUser 3 with Status := "rejected" } (by decide) (Or.inl rfl) rfl
    (List.mem_singleton.mpr rfl) ⟨rfl, rfl⟩


theorem updateUserRole_ok (h : UserHandler) (now : Time) (idParam : String)
    (id : Nat) (role : String) (u : User)
    (hid : ParseUint32 idParam = some id)
    (hrole : role = "user" ∨ role = "admin")
    (hdb : h.db.failing = false)
    (hu : u ∈ h.db.users) (hsel : u.ID = id ∧ u.DeletedAt = none) :
    UpdateUserRole h now idParam (some role) =
      (⟨{ h.db with
          users := h.db.users.map (fun v =>
            if DB.selects id v then { v with Role := role, UpdatedAt := now } else v) }⟩,
       ⟨200, false, "User role updated successfully"⟩) := by
  have hne : role ≠ "" := by rcases hrole with r | r <;> (rw [r]; decide)
  have hvalid : ¬ (role ≠ "user" ∧ role ≠ "admin") := by
    rintro ⟨h1, h2⟩
    rcases hrole with r | r
    · exact h1 r
    · exact h2 r
  have hrows := rows_affected_pos h.db id u hu hsel
  simp only [UpdateUserRole, hid, bindRole, hne, if_false, hvalid,
    db_update_ok h.db now id _ hdb, hrows, Bool.false_eq_true]

theorem approveUser_ok (h : UserHandler) (now dbNow : Time) (idParam : String)
    (id : Nat) (ctxUserID : Option Nat) (u : User)
    (hid : ParseUint32 idParam = some id)
    (hdb : h.db.failing = false)
    (hu : u ∈ h.db.users) (hsel : u.ID = id ∧ u.DeletedAt = none) :
    ApproveUser h now dbNow idParam ctxUserID =
      (⟨{ h.db with
          users := h.db.users.map (fun v =>
            if DB.selects id v then
              { v with Status := "approved", Role := "user", ApprovedBy := ctxUserID,
                       ApprovedAt := some dbNow, UpdatedAt := now }
            else v) }⟩,
       ⟨200, false, "User approved successfully"⟩) := by
  have hrows := rows_affected_pos h.db id u hu hsel
  simp only [ApproveUser, hid, db_update_ok h.db now id _ hdb, hrows, if_false,
    Bool.false_eq_true]

theorem rejectUser_ok (h : UserHandler) (now : Time) (idParam : String)
    (id : Nat) (u : User)
    (hid : ParseUint32 idParam = some id)
    (hdb : h.db.failing = false)
    (hu : u ∈ h.db.users) (hsel : u.ID = id ∧ u.DeletedAt = none) :
    RejectUser h now idParam =
      (⟨{ h.db with
          users := h.db.users.map (fun v =>
            if DB.selects id v then { v with Status := "rejected", UpdatedAt := now }
            else v) }⟩,
       ⟨200, false, "User rejected successfully"⟩) := by
  have hrows := rows_affected_pos h.db id u hu hsel
  simp only [RejectUser, hid, db_update_ok h.db now id _ hdb, hrows, if_false,
    Bool.false_eq_true]

theorem mem_map_selected (users : List User) (id : Nat) (f : User → User) (u : User)
    (hu : u ∈ users) (hsel : u.ID = id ∧ u.DeletedAt = none) :
    f u ∈ users.map (fun v => if DB.selects id v then f v else v) := by
  refine List.mem_map.mpr ⟨u, hu, ?_⟩
  simp [DB.selects, hsel.1, hsel.2]

/-- C11, as stated, fails for the empty role string: the required-field binding
turns it away with its own bad-request text before the role check is reached. -/
theorem empty_role_binding_error :
    UpdateUserRole ⟨⟨[approvedUser 1 "user"], false⟩⟩ ⟨5⟩ "1" (some "") =
      (⟨⟨[approvedUser 1 "user"], false⟩⟩,
       ⟨400, true,
        "Key: 'Role' Error:Field validation for 'Role' failed on the 'required' tag"⟩) ∧
    "" ≠ "user" ∧ "" ≠ "admin" ∧
    (UpdateUserRole ⟨⟨[approvedUser 1 "user"], false⟩⟩ ⟨5⟩ "1" (some "")).2.text ≠
      "Invalid role. Must be 'user' or 'admin'" := by
  decide

/-- C11, amended. With a well-formed id parameter: for every non-empty requested
role other than exactly `user` or `admin` the handler answers 400 with the
"Invalid role" text and changes nothing; for the empty role it answers 400 with the
binding error and changes nothing; for `user` or `admin` and an existing account
of that id, with the database answering, it answers 200 and the account's role is
exactly the requested value. -/
theorem updateUserRole_role_validation (h : UserHandler) (now : Time) (idParam : String)
    (id : Nat) (role : String) (u : User)
    (hid : ParseUint32 idParam = some id) :
    ((role ≠ "" ∧ role ≠ "user" ∧ role ≠ "admin") →
      UpdateUserRole h now idParam (some role) =
        (h, ⟨400, true, "Invalid role. Must be 'user' or 'admin'"⟩)) ∧
    (role = "" →
      UpdateUserRole h now idParam (some role) =
        (h, ⟨400, true,
          "Key: 'Role' Error:Field validation for 'Role' failed on the 'required' tag"⟩)) ∧
    ((role = "user" ∨ role = "admin") → h.db.failing = false → u ∈ h.db.users →
      (u.ID = id ∧ u.DeletedAt = none) →
      (UpdateUserRole h now idParam (some role)).2 =
        ⟨200, false, "User role updated successfully"⟩ ∧
      { u with Role := role, UpdatedAt := now } ∈
        (UpdateUserRole h now idParam (some role)).1.db.users) := by
  refine ⟨?_, ?_, ?_⟩
  · rintro ⟨hne, h1, h2⟩
    simp [UpdateUserRole, hid, bindRole, hne, h1, h2]
  · intro he
    simp [UpdateUserRole, hid, bindRole, he]
  · intro hrole hdb hu hsel
    rw [updateUserRole_ok h now idParam id role u hid hrole hdb hu hsel]
    exact ⟨rfl, mem_map_selected h.db.users id
      (fun v => { v with Role := role, UpdatedAt := now }) u hu hsel⟩

/-- Witness of `updateUserRole_role_validation`: the role `Admin` is refused and
the role `admin` is given to an approved account. -/
theorem updateUserRole_role_validation_witness :
    UpdateUserRole ⟨⟨[approvedUser 1 "user"], false⟩⟩ ⟨5⟩ "1" (some "Admin") =
      (⟨⟨[approvedUser 1 "user"], false⟩⟩,
       ⟨400, true, "Invalid role. Must be 'user' or 'admin'"⟩) ∧
    ((UpdateUserRole ⟨⟨[approvedUser 1 "user"], false⟩⟩ ⟨5⟩ "1" (some "admin")).2 =
        ⟨200, false, "User role updated successfully"⟩ ∧
      { approvedUser 1 "user" with Role := "admin", UpdatedAt := ⟨5⟩ } ∈
        (UpdateUserRole ⟨⟨[approvedUser 1 "user"], false⟩⟩ ⟨5⟩ "1" (some "admin")).1.db.users) :=
  ⟨(updateUserRole_role_validation ⟨⟨[approvedUser 1 "user"], false⟩⟩ ⟨5⟩ "1" 1 "Admin"
      (approvedUser 1 "user") (by decide)).1 (by decide),
   (updateUserRole_role_validation ⟨⟨[approvedUser 1 "user"], false⟩⟩ ⟨5⟩ "1" 1 "admin"
      (approvedUser 1 "user") (by decide)).2.2 (Or.inr rfl) rfl
      (List.mem_singleton.mpr rfl) ⟨rfl, rfl⟩⟩


/-- C12. Effect of approval: for an existing account of the given id and an
approving administrator whose user id is in the request context, with the database
answering, `ApproveUser` answers 200 and afterwards the account has status
`approved`, role `user`, `approved_by` the administrator's id and `approved_at`
the approval instant (and a fresh `updated_at`); every row that is not an account
of that id is unchanged. -/
theorem approveUser_effect (h : UserHandler) (now dbNow : Time) (idParam : String)
    (id adminID : Nat) (u : User)
    (hid : ParseUint32 idParam = some id)
    (hdb : h.db.failing = false)
    (hu : u ∈ h.db.users) (hsel : u.ID = id ∧ u.DeletedAt = none) :
    (ApproveUser h now dbNow idParam (some adminID)).2 =
      ⟨200, false, "User approved successfully"⟩ ∧
    (ApproveUser h now dbNow idParam (some adminID)).1.db.users =
      h.db.users.map (fun v =>
        if v.ID = id ∧ v.DeletedAt = none then
          { v with Status := "approved", Role := "user", ApprovedBy := some adminID,
                   ApprovedAt := some dbNow, UpdatedAt := now }
        else v) ∧
    { u with Status := "approved", Role := "user", ApprovedBy := some adminID,
             ApprovedAt := some dbNow, UpdatedAt := now } ∈
      (ApproveUser h now dbNow idParam (some adminID)).1.db.users := by
  rw [approveUser_ok h now dbNow idParam id (some adminID) u hid hdb hu hsel]
  refine ⟨rfl, ?_, mem_map_selected h.db.users id
    (fun v => { v with Status := "approved", Role := "user", ApprovedBy := some adminID,
                       ApprovedAt := some dbNow, UpdatedAt := now }) u hu hsel⟩
  simp [DB.selects]

/-- Witness of `approveUser_effect`: administrator 7 approves the pending
account 1 while account 2 stays as it is. -/
theorem approveUser_effect_witness :
    (ApproveUser ⟨⟨[pendingUser 1, pendingUser 2], false⟩⟩ ⟨5⟩ ⟨6⟩ "1" (some 7)).2 =
      ⟨200, false, "User approved successfully"⟩ ∧
    (ApproveUser ⟨⟨[pendingUser 1, pendingUser 2], false⟩⟩ ⟨5⟩ ⟨6⟩ "1" (some 7)).1.db.users =
      [pendingUser 1, pendingUser 2].map (fun v =>
        if v.ID = 1 ∧ v.DeletedAt = none then
          { v with Status := "approved", Role := "user", ApprovedBy := some 7,
                   ApprovedAt := some ⟨6⟩, UpdatedAt := ⟨5⟩ }
        else v) ∧
    { pendingUser 1 with Status := "approved", Role := "user", ApprovedBy := some 7,
                         ApprovedAt := some ⟨6⟩, UpdatedAt := ⟨5⟩ } ∈
      (ApproveUser ⟨⟨[pendingUser 1, pendingUser 2], false⟩⟩ ⟨5⟩ ⟨6⟩ "1" (some 7)).1.db.users :=
  approveUser_effect ⟨⟨[pendingUser 1, pendingUser 2], false⟩⟩ ⟨5⟩ ⟨6⟩ "1" 1 7 (pendingUser 1)
    (by decide) rfl (List.mem_cons_self _ _) ⟨rfl, rfl⟩

/-- C13, as stated, fails for an approved administrator: `ApproveUser` on the
approved account 1 with role `admin` answers 200 and leaves the account with role
`user`. -/
theorem reapproval_demotes_admin :
    ApproveUser ⟨⟨[approvedUser 1 "admin"], false⟩⟩ ⟨5⟩ ⟨6⟩ "1" (some 2) =
      (⟨⟨[{ approvedUser 1 "admin" with Role := "user", ApprovedBy := some 2,
                                        ApprovedAt := some ⟨6⟩, UpdatedAt := ⟨5⟩ }], false⟩⟩,
       ⟨200, false, "User approved successfully"⟩) ∧
    (approvedUser 1 "admin").Status = "approved" ∧ (approvedUser 1 "admin").Role = "admin" := by
  decide

/-- C13, amended. For an account that already has status `approved`, with the
database answering, `ApproveUser` is accepted and the account afterwards differs
from before in `approved_by`, `approved_at`, `updated_at` and the role only: the
role is `user` whatever it was, so an account with role `user` keeps it and an
account with role `admin` loses it. -/
theorem reapproval_effect (h : UserHandler) (now dbNow : Time) (idParam : String)
    (id : Nat) (ctxUserID : Option Nat) (u : User)
    (hid : ParseUint32 idParam = some id)
    (hdb : h.db.failing = false)
    (hu : u ∈ h.db.users) (hsel : u.ID = id ∧ u.DeletedAt = none)
    (hstatus : u.Status = "approved") :
    (ApproveUser h now dbNow idParam ctxUserID).2 =
      ⟨200, false, "User approved successfully"⟩ ∧
    { u with Role := "user", ApprovedBy := ctxUserID, ApprovedAt := some dbNow,
             UpdatedAt := now } ∈
      (ApproveUser h now dbNow idParam ctxUserID).1.db.users := by
  rw [approveUser_ok h now dbNow idParam id ctxUserID u hid hdb hu hsel]
  refine ⟨rfl, ?_⟩
  have hm := mem_map_selected h.db.users id
    (fun v => { v with Status := "approved", Role := "user", ApprovedBy := ctxUserID,
                       ApprovedAt := some dbNow, UpdatedAt := now }) u hu hsel
  have heq : ({ u with Status := "approved", Role := "user", ApprovedBy := ctxUserID,
                       ApprovedAt := some dbNow, UpdatedAt := now } : User) =
      { u with Role := "user", ApprovedBy := ctxUserID, ApprovedAt := some dbNow,
               UpdatedAt := now } := by
    rw [← hstatus]
  rw [← heq]
  exact hm

/-- Witness of `reapproval_effect`: an approved account with role `user` is
approved again by administrator 2. -/
theorem reapproval_effect_witness :
    (ApproveUser ⟨⟨[approvedUser 1 "user"], false⟩⟩ ⟨5⟩ ⟨6⟩ "1" (some 2)).2 =
      ⟨200, false, "User approved successfully"⟩ ∧
    { approvedUser 1 "user" with Role := "user", ApprovedBy := some 2,
                                 ApprovedAt := some ⟨6⟩, UpdatedAt := ⟨5⟩ } ∈
      (ApproveUser ⟨⟨[approvedUser 1 "user"], false⟩⟩ ⟨5⟩ ⟨6⟩ "1" (some 2)).1.db.users :=
  reapproval_effect ⟨⟨[approvedUser 1 "user"], false⟩⟩ ⟨5⟩ ⟨6⟩ "1" 1 (some 2)
    (approvedUser 1 "user") (by decide) rfl (List.mem_singleton.mpr rfl) ⟨rfl, rfl⟩ rfl

/-- C14. Effect of rejection: for an existing account of the given id, with the
database answering, `RejectUser` answers 200 and afterwards the account has status
`rejected` with its role, `approved_by` and `approved_at` as before (only
`updated_at` is refreshed); every row that is not an account of that id is
unchanged. -/
theorem rejectUser_effect (h : UserHandler) (now : Time) (idParam : String)
    (id : Nat) (u : User)
    (hid : ParseUint32 idParam = some id)
    (hdb : h.db.failing = false)
    (hu : u ∈ h.db.users) (hsel : u.ID = id ∧ u.DeletedAt = none) :
    (RejectUser h now idParam).2 = ⟨200, false, "User rejected successfully"⟩ ∧
    (RejectUser h now idParam).1.db.users =
      h.db.users.map (fun v =>
        if v.ID = id ∧ v.DeletedAt = none then
          { v with Status := "rejected", UpdatedAt := now }
        else v) ∧
    (∃ u' ∈ (RejectUser h now idParam).1.db.users,
      u' = { u with Status := "rejected", UpdatedAt := now } ∧
      u'.Status = "rejected" ∧ u'.Role = u.Role ∧
      u'.ApprovedBy = u.ApprovedBy ∧ u'.ApprovedAt = u.ApprovedAt) := by
  rw [rejectUser_ok h now idParam id u hid hdb hu hsel]
  refine ⟨rfl, ?_, ⟨_, mem_map_selected h.db.users id
    (fun v => { v with Status := "rejected", UpdatedAt := now }) u hu hsel,
    rfl, rfl, rfl, rfl, rfl⟩⟩
  simp [DB.selects]

/-- Witness of `rejectUser_effect`: the pending account 2 is rejected while
account 1 stays as it is. -/
theorem rejectUser_effect_witness :
    (RejectUser ⟨⟨[pendingUser 1, pendingUser 2], false⟩⟩ ⟨5⟩ "2").2 =
      ⟨200, false, "User rejected successfully"⟩ ∧
    (RejectUser ⟨⟨[pendingUser 1, pendingUser 2], false⟩⟩ ⟨5⟩ "2").1.db.users =
      [pendingUser 1, pendingUser 2].map (fun v =>
        if v.ID = 2 ∧ v.DeletedAt = none then
          { v with Status := "rejected", UpdatedAt := ⟨5⟩ }
        else v) ∧
    (∃ u' ∈ (RejectUser ⟨⟨[pendingUser 1, pendingUser 2], false⟩⟩ ⟨5⟩ "2").1.db.users,
      u' = { pendingUser 2 with Status := "rejected", UpdatedAt := ⟨5⟩ } ∧
      u'.Status = "rejected" ∧ u'.Role = (pendingUser 2).Role ∧
      u'.ApprovedBy = (pendingUser 2).ApprovedBy ∧
      u'.ApprovedAt = (pendingUser 2).ApprovedAt) :=
  rejectUser_effect ⟨⟨[pendingUser 1, pendingUser 2], false⟩⟩ ⟨5⟩ "2" 2 (pendingUser 2)
    (by decide) rfl (List.mem_cons_of_mem _ (List.mem_singleton.mpr rfl)) ⟨rfl, rfl⟩


/-! ## The lifecycle handlers row by row -/

theorem db_update_users (db : DB) (now : Time) (id : Nat) (assign : User → User) :
    (db.Update now id assign).1.users =
      db.users.map (fun v =>
        if db.failing = false ∧ DB.selects id v = true then
          { (assign v) with UpdatedAt := now }
        else v) := by
  cases hf : db.failing with
  | true => simp [DB.Update, hf]
  | false => simp [DB.Update, hf]

theorem approveUser_users (h : UserHandler) (now dbNow : Time) (idParam : String)
    (ctxUserID : Option Nat) :
    (ApproveUser h now dbNow idParam ctxUserID).1.db.users =
      match ParseUint32 idParam with
      | none => h.db.users
      | some id =>
        (h.db.Update now id (fun u =>
          { u with Status := "approved", Role := "user",
                   ApprovedBy := ctxUserID, ApprovedAt := some dbNow })).1.users := by
  unfold ApproveUser
  cases ParseUint32 idParam with
  | none => rfl
  | some id =>
    simp only []
    split_ifs <;> rfl

theorem rejectUser_users (h : UserHandler) (now : Time) (idParam : String) :
    (RejectUser h now idParam).1.db.users =
      match ParseUint32 idParam with
      | none => h.db.users
      | some id => (h.db.Update now id (fun u => { u with Status := "rejected" })).1.users := by
  unfold RejectUser
  cases ParseUint32 idParam with
  | none => rfl
  | some id =>
    simp only []
    split_ifs <;> rfl

theorem updateUserRole_users (h : UserHandler) (now : Time) (idParam : String)
    (body : Option String) :
    (UpdateUserRole h now idParam body).1.db.users = h.db.users ∨
    ∃ id role, ParseUint32 idParam = some id ∧ (role = "user" ∨ role = "admin") ∧
      (UpdateUserRole h now idParam body).1.db.users =
        (h.db.Update now id (fun u => { u with Role := role })).1.users := by
  unfold UpdateUserRole
  cases hid : ParseUint32 idParam with
  | none => exact Or.inl rfl
  | some id =>
    cases hb : bindRole body with
    | error e => exact Or.inl rfl
    | ok role =>
      by_cases hr : role ≠ "user" ∧ role ≠ "admin"
      · left
        simp [hr]
      · right
        refine ⟨id, role, rfl, ?_, ?_⟩
        · by_cases h1 : role = "user"
          · exact Or.inl h1
          · by_cases h2 : role = "admin"
            · exact Or.inr h2
            · exact absurd ⟨h1, h2⟩ hr
        · simp only [hr, if_false]
          split_ifs <;> rfl

theorem forall₂_compose {α : Type} {R₁ R₂ R : α → α → Prop}
    (hR : ∀ a b c, R₁ a b → R₂ b c → R a c) :
    ∀ {l₁ l₂ l₃ : List α}, List.Forall₂ R₁ l₁ l₂ → List.Forall₂ R₂ l₂ l₃ →
      List.Forall₂ R l₁ l₃ := by
  intro l₁ l₂ l₃ h₁
  induction h₁ generalizing l₃ with
  | nil =>
    intro h₂
    cases h₂
    exact List.Forall₂.nil
  | cons hab _ ih =>
    intro h₂
    cases h₂ with
    | cons hbc htl => exact List.Forall₂.cons (hR _ _ _ hab hbc) (ih htl)

theorem forall₂_map_self {α : Type} {R : α → α → Prop} (f : α → α) (l : List α)
    (hf : ∀ x ∈ l, R x (f x)) : List.Forall₂ R l (l.map f) := by
  induction l with
  | nil => exact List.Forall₂.nil
  | cons x tl ih =>
    exact List.Forall₂.cons (hf x (List.mem_cons_self _ _))
      (ih (fun y hy => hf y (List.mem_cons_of_mem _ hy)))

theorem statusMove_step (h : UserHandler) (op : LifecycleOp) :
    List.Forall₂ (statusMove [op]) h.db.users (op.run h).db.users := by
  cases op with
  | approve now dbNow idParam ctxUserID =>
    simp only [LifecycleOp.run]
    rw [approveUser_users]
    cases ParseUint32 idParam with
    | none =>
      simpa using forall₂_map_self id h.db.users (fun x _ => ⟨rfl, Or.inl rfl⟩)
    | some n =>
      simp only [db_update_users]
      apply forall₂_map_self
      intro x _
      split_ifs
      · exact ⟨rfl, Or.inr (Or.inl ⟨rfl, _, List.mem_singleton.mpr rfl, rfl⟩)⟩
      · exact ⟨rfl, Or.inl rfl⟩
  | reject now idParam =>
    simp only [LifecycleOp.run]
    rw [rejectUser_users]
    cases ParseUint32 idParam with
    | none =>
      simpa using forall₂_map_self id h.db.users (fun x _ => ⟨rfl, Or.inl rfl⟩)
    | some n =>
      simp only [db_update_users]
      apply forall₂_map_self
      intro x _
      split_ifs
      · exact ⟨rfl, Or.inr (Or.inr ⟨rfl, _, List.mem_singleton.mpr rfl, rfl⟩)⟩
      · exact ⟨rfl, Or.inl rfl⟩
  | setRole now idParam body =>
    simp only [LifecycleOp.run]
    rcases updateUserRole_users h now idParam body with hu | ⟨n, role, _, _, hu⟩
    · rw [hu]
      simpa using forall₂_map_self id h.db.users (fun x _ => ⟨rfl, Or.inl rfl⟩)
    · rw [hu, db_update_users]
      apply forall₂_map_self
      intro x _
      split_ifs
      · exact ⟨rfl, Or.inl rfl⟩
      · exact ⟨rfl, Or.inl rfl⟩

theorem statusMove_trans (op : LifecycleOp) (rest : List LifecycleOp) (a b c : User)
    (h₁ : statusMove [op] a b) (h₂ : statusMove rest b c) : statusMove (op :: rest) a c := by
  obtain ⟨hid₁, hs₁⟩ := h₁
  obtain ⟨hid₂, hs₂⟩ := h₂
  refine ⟨hid₂.trans hid₁, ?_⟩
  rcases hs₂ with hsame | ⟨hap, o, ho, hoa⟩ | ⟨hrj, o, ho, hor⟩
  · rcases hs₁ with hsame₁ | ⟨hap, o, ho, hoa⟩ | ⟨hrj, o, ho, hor⟩
    · exact Or.inl (hsame.trans hsame₁)
    · rw [List.mem_singleton] at ho
      exact Or.inr (Or.inl ⟨hsame.trans hap, op, List.mem_cons_self _ _, ho ▸ hoa⟩)
    · rw [List.mem_singleton] at ho
      exact Or.inr (Or.inr ⟨hsame.trans hrj, op, List.mem_cons_self _ _, ho ▸ hor⟩)
  · exact Or.inr (Or.inl ⟨hap, o, List.mem_cons_of_mem _ ho, hoa⟩)
  · exact Or.inr (Or.inr ⟨hrj, o, List.mem_cons_of_mem _ ho, hor⟩)


/-- C15, as stated, fails for `RejectUser` and for `UpdateUserRole`: rejecting an
approved account with role `user` leaves a rejected account with role `user`, and
giving the role `admin` to a pending account leaves a pending account with role
`admin`; the policy held before each call and is broken after it. -/
theorem coupling_broken_by_reject_and_setRole :
    (∀ u ∈ [approvedUser 1 "user"], coupled u) ∧
    ¬ (∀ u ∈ (RejectUser ⟨⟨[approvedUser 1 "user"], false⟩⟩ ⟨5⟩ "1").1.db.users, coupled u) ∧
    (∀ u ∈ [pendingUser 1], coupled u) ∧
    ¬ (∀ u ∈ (UpdateUserRole ⟨⟨[pendingUser 1], false⟩⟩ ⟨5⟩ "1" (some "admin")).1.db.users,
        coupled u) := by
  decide

/-- C15, amended. If every account satisfies the role/status policy, then so does
every account after `ApproveUser`; after `RejectUser` when the accounts it
addresses have role `pending`; and after `UpdateUserRole` when the accounts it
addresses have status `approved`. -/
theorem coupling_preserved (h : UserHandler) (hinv : ∀ u ∈ h.db.users, coupled u) :
    (∀ (now dbNow : Time) (idParam : String) (ctxUserID : Option Nat),
      ∀ u ∈ (ApproveUser h now dbNow idParam ctxUserID).1.db.users, coupled u) ∧
    (∀ (now : Time) (idParam : String),
      (∀ u ∈ h.db.users, ∀ id, ParseUint32 idParam = some id → DB.selects id u = true →
        u.Role = "pending") →
      ∀ u ∈ (RejectUser h now idParam).1.db.users, coupled u) ∧
    (∀ (now : Time) (idParam : String) (body : Option String),
      (∀ u ∈ h.db.users, ∀ id, ParseUint32 idParam = some id → DB.selects id u = true →
        u.Status = "approved") →
      ∀ u ∈ (UpdateUserRole h now idParam body).1.db.users, coupled u) := by
  refine ⟨?_, ?_, ?_⟩
  · intro now dbNow idParam ctxUserID u hu
    rw [approveUser_users] at hu
    cases hid : ParseUint32 idParam with
    | none =>
      rw [hid] at hu
      exact hinv u hu
    | some id =>
      rw [hid] at hu
      simp only [db_update_users] at hu
      obtain ⟨v, hv, rfl⟩ := List.mem_map.mp hu
      split_ifs
      · refine ⟨fun _ => rfl, fun hs => ?_⟩
        have hs' : ("approved" : String) = "pending" ∨ ("approved" : String) = "rejected" := hs
        rcases hs' with hs' | hs' <;> exact absurd hs' (by decide)
      · exact hinv v hv
  · intro now idParam hpend u hu
    rw [rejectUser_users] at hu
    cases hid : ParseUint32 idParam with
    | none =>
      rw [hid] at hu
      exact hinv u hu
    | some id =>
      rw [hid] at hu
      simp only [db_update_users] at hu
      obtain ⟨v, hv, rfl⟩ := List.mem_map.mp hu
      split_ifs with hc
      · have hr : v.Role = "pending" := hpend v hv id hid hc.2
        refine ⟨fun hs => ?_, fun _ => hr⟩
        simp only [hr] at hs
        rcases hs with hs | hs <;> exact absurd hs (by decide)
      · exact hinv v hv
  · intro now idParam body happ u hu
    rcases updateUserRole_users h now idParam body with hsame | ⟨id, role, hid, hrole, hupd⟩
    · rw [hsame] at hu
      exact hinv u hu
    · rw [hupd, db_update_users] at hu
      obtain ⟨v, hv, rfl⟩ := List.mem_map.mp hu
      split_ifs with hc
      · have hst : v.Status = "approved" := happ v hv id hid hc.2
        refine ⟨fun _ => hst, fun hs => ?_⟩
        simp only [hst] at hs
        rcases hs with hs | hs <;> exact absurd hs (by decide)
      · exact hinv v hv

/-- Witness of `coupling_preserved`: a table with one pending and one approved
account satisfies the policy, and still does after the pending one is approved. -/
theorem coupling_preserved_witness :
    (ApproveUser ⟨⟨[pendingUser 1, approvedUser 2 "admin"], false⟩⟩ ⟨5⟩ ⟨6⟩ "1"
        (some 2)).1.db.users.all (fun u => decide (coupled u)) = true :=
  List.all_eq_true.mpr (fun u hu => decide_eq_true
    ((coupling_preserved ⟨⟨[pendingUser 1, approvedUser 2 "admin"], false⟩⟩ (by decide)).1
      ⟨5⟩ ⟨6⟩ "1" (some 2) u hu))

/-- C16, as stated, fails in both directions: `ApproveUser` takes a rejected
account to `approved`, and `RejectUser` takes an approved account to `rejected`. -/
theorem rejected_and_approved_convert :
    ((ApproveUser ⟨⟨[{ pendingUser 1 with Status := "rejected" }], false⟩⟩ ⟨5⟩ ⟨6⟩ "1"
        (some 2)).1.db.users.map (fun u => u.Status)) = ["approved"] ∧
    ((RejectUser ⟨⟨[approvedUser 1 "user"], false⟩⟩ ⟨5⟩ "1").1.db.users.map
        (fun u => u.Status)) = ["rejected"] := by
  decide

/-- C16, amended. Over every sequence of `ApproveUser`, `RejectUser` and
`UpdateUserRole` calls the table keeps its rows in place, and the status of a row
at the end is its status at the start, or `approved` when an `ApproveUser` is
among the calls, or `rejected` when a `RejectUser` is among them, whatever the
status was before: the transitions are any to approved and any to rejected, and
`UpdateUserRole` changes no status. -/
theorem status_moves (ops : List LifecycleOp) :
    ∀ h : UserHandler, List.Forall₂ (statusMove ops) h.db.users (runOps h ops).db.users := by
  induction ops with
  | nil =>
    intro h
    simpa [runOps] using forall₂_map_self id h.db.users (fun x _ => ⟨rfl, Or.inl rfl⟩)
  | cons op rest ih =>
    intro h
    have h₁ := statusMove_step h op
    have h₂ := ih (op.run h)
    exact forall₂_compose (statusMove_trans op rest) h₁ h₂


/-! ## First sighting, role gate, sweep and unknown state -/

/-- C17: a first login of the provider subject `g-123`. The login stores the state
`"0"`, the callback carrying it passes the state check, the code exchange and the
profile lookup succeed, and the answer is the profile with the "wait for admin
approval" message; the `users` table, empty before, is empty afterwards. -/
theorem callback_creates_no_account :
    (App.HandleGoogleCallback
        { freshApp with authService := (HandleGoogleLogin freshApp.authService ⟨0⟩ ⟨0⟩).1 }
        ⟨10⟩ "0" "good-code").2 =
      .ok { ID := "g-123", Email := "new@example.com", Name := "New", Picture := "" } ∧
    freshApp.userHandler.db.users = [] ∧
    (App.HandleGoogleCallback
        { freshApp with authService := (HandleGoogleLogin freshApp.authService ⟨0⟩ ⟨0⟩).1 }
        ⟨10⟩ "0" "good-code").1.userHandler.db.users = [] := by
  decide

/-- C18. Role gate: `AdminRequired` lets the request continue exactly when the
context holds `user_role` with the value `admin`; with the role `user`, any other
value, or no role, the request ends with 403 and the handler does not run; and
each route of the `/admin` group is registered with the chain that ends in
`AuthRequired` followed by `AdminRequired`. -/
theorem role_gate (c : Context) (handler : Context → Nat) :
    (AdminRequired c = .next ↔ ctxGet c "user_role" = some (.str "admin")) ∧
    (AdminRequired c = .next ∨ AdminRequired c = .abort 403) ∧
    serveBehindAdminRequired handler c =
      (if ctxGet c "user_role" = some (.str "admin") then (handler c, true)
       else (403, false)) ∧
    AdminRequired (contextWithRole "user") = .abort 403 ∧
    AdminRequired (contextWithRole "admin") = .next ∧
    AdminRequired contextWithoutRole = .abort 403 ∧
    (∀ r ∈ routes, r.isAdmin = true →
      r.chain = [.Logger, .Recovery, .CORS, .AuthRequired, .AdminRequired]) ∧
    (routes.filter Route.isAdmin).map (fun r => r.handler) =
      ["userHandler.GetPendingUsers", "userHandler.ApproveUser",
       "userHandler.RejectUser", "userHandler.UpdateUserRole"] := by
  refine ⟨?_, ?_, ?_, by decide, by decide, by decide, by decide, by decide⟩
  · unfold AdminRequired
    split_ifs with hc
    · simp [hc]
    · simp [hc]
  · unfold AdminRequired
    split_ifs
    · exact Or.inl rfl
    · exact Or.inr rfl
  · unfold serveBehindAdminRequired AdminRequired
    split_ifs <;> rfl

/-- C19. Reaper sweep: after one tick of `cleanupExpiredStates` at `now` the map
holds exactly the entries of the original map whose expiry is not before `now`,
each with its expiry unchanged; an entry whose expiry has passed is gone, nothing
is added, and a lookup that found an unexpired entry finds it again. -/
theorem sweep_keeps_exactly_unexpired (a : AuthService) (now : Time) :
    (∀ k e, (k, e) ∈ (cleanupExpiredStates a now).states ↔
      ((k, e) ∈ a.states ∧ now.nanos ≤ e.nanos)) ∧
    List.Sublist (cleanupExpiredStates a now).states a.states ∧
    (∀ k e, mapGet a.states k = some e → now.nanos ≤ e.nanos →
      mapGet (cleanupExpiredStates a now).states k = some e) ∧
    (∀ k, mapGet a.states k = none → mapGet (cleanupExpiredStates a now).states k = none) := by
  refine ⟨?_, ?_, ?_, ?_⟩
  · intro k e
    simp only [cleanupExpiredStates, List.mem_filter, Time.After, Bool.not_eq_true',
      decide_eq_false_iff_not, not_lt]
  · exact List.filter_sublist _
  · intro k e hg hle
    apply mapGet_filter_keep _ hg
    simp only [Time.After, Bool.not_eq_true', decide_eq_false_iff_not, not_lt]
    exact hle
  · intro k hg
    exact mapGet_filter_none _ hg

/-- The traced handler is the handler: same service afterwards, same response. -/
theorem traced_eq_callback (a : AuthService) (now : Time) (state code : String) :
    ((HandleGoogleCallbackTraced a now state code).1,
     (HandleGoogleCallbackTraced a now state code).2.1) =
      HandleGoogleCallback a now state code := by
  unfold HandleGoogleCallbackTraced HandleGoogleCallback
  repeat' split
  all_goals rfl

/-- A request that passes the state check does attempt the code exchange, with the
code of the request, as its first call. -/
theorem traced_exchange_when_passed (a : AuthService) (now : Time) (state code : String)
    (h : (HandleGoogleCallback a now state code).2.passedStateCheck = true) :
    ∃ rest, (HandleGoogleCallbackTraced a now state code).2.2 = .exchange code :: rest := by
  obtain ⟨hs, e, hg, hn⟩ := (callback_passed_iff a now state code).mp h
  unfold HandleGoogleCallbackTraced
  simp only [hs, if_false, hg, hn, Bool.false_eq_true]
  repeat' split
  all_goals exact ⟨_, rfl⟩

theorem traced_absent (a : AuthService) (now : Time) {state : String} (code : String)
    (hs : state ≠ "") (h : mapGet a.states state = none) :
    HandleGoogleCallbackTraced a now state code = (a, .invalidOrExpiredState, []) := by
  simp [HandleGoogleCallbackTraced, hs, h]

/-- C20. A callback whose state parameter is non-empty and is not a key of the
states map gets the "Invalid or expired state" answer; the request makes no call
to the provider (no code exchange is attempted, no profile is fetched), the answer
carries no credential, and the service, its states map and the `users` table are
exactly what they were, so every pending login is still verifiable. -/
theorem unknown_state_rejected (app : App) (now : Time) (state code : String)
    (hs : state ≠ "") (hk : ∀ e, (state, e) ∉ app.authService.states) :
    HandleGoogleCallbackTraced app.authService now state code =
      (app.authService, .invalidOrExpiredState, []) ∧
    (HandleGoogleCallbackTraced app.authService now state code).2.2 = [] ∧
    App.HandleGoogleCallback app now state code = (app, .invalidOrExpiredState) ∧
    HandleGoogleCallback app.authService now state code =
      (app.authService, .invalidOrExpiredState) ∧
    (HandleGoogleCallback app.authService now state code).2.passedStateCheck = false ∧
    (∀ k, mapGet (HandleGoogleCallback app.authService now state code).1.states k =
      mapGet app.authService.states k) := by
  have ht := traced_absent app.authService now code hs (mapGet_eq_none hk)
  have hc := callback_absent app.authService now code hs (mapGet_eq_none hk)
  refine ⟨ht, ?_, ?_, hc, ?_, ?_⟩
  · rw [ht]
  · simp only [App.HandleGoogleCallback, hc]
  · rw [hc]
    rfl
  · intro k
    rw [hc]

/-- Witness of `unknown_state_rejected`: the state `"0"` is pending and the
callback carries `"1"` with a code the provider would accept. -/
theorem unknown_state_rejected_witness :
    HandleGoogleCallbackTraced ⟨liveConfig, [("0", ⟨300000000000⟩)]⟩ ⟨10⟩ "1" "good-code" =
      (⟨liveConfig, [("0", ⟨300000000000⟩)]⟩, .invalidOrExpiredState, []) ∧
    (HandleGoogleCallbackTraced ⟨liveConfig, [("0", ⟨300000000000⟩)]⟩ ⟨10⟩ "1"
      "good-code").2.2 = [] ∧
    App.HandleGoogleCallback
        { freshApp with authService := ⟨liveConfig, [("0", ⟨300000000000⟩)]⟩ }
        ⟨10⟩ "1" "good-code" =
      ({ freshApp with authService := ⟨liveConfig, [("0", ⟨300000000000⟩)]⟩ },
       .invalidOrExpiredState) ∧
    HandleGoogleCallback ⟨liveConfig, [("0", ⟨300000000000⟩)]⟩ ⟨10⟩ "1" "good-code" =
      (⟨liveConfig, [("0", ⟨300000000000⟩)]⟩, .invalidOrExpiredState) ∧
    (HandleGoogleCallback ⟨liveConfig, [("0", ⟨300000000000⟩)]⟩ ⟨10⟩ "1"
      "good-code").2.passedStateCheck = false ∧
    (∀ k, mapGet (HandleGoogleCallback ⟨liveConfig, [("0", ⟨300000000000⟩)]⟩ ⟨10⟩ "1"
        "good-code").1.states k =
      mapGet [("0", ⟨300000000000⟩)] k) :=
  unknown_state_rejected
    { freshApp with authService := ⟨liveConfig, [("0", ⟨300000000000⟩)]⟩ }
    ⟨10⟩ "1" "good-code" (by decide)
    (by
      intro e he
      rw [List.mem_singleton] at he
      have hk : ("1" : String) = "0" := congrArg Prod.fst he
      exact absurd hk (by decide))

/-- The trace does record: the same service answers the callback that carries the
pending state `"0"` by calling the exchange and then the profile endpoint. -/
theorem traced_calls_on_known_state :
    (HandleGoogleCallbackTraced ⟨liveConfig, [("0", ⟨300000000000⟩)]⟩ ⟨10⟩ "0"
      "good-code").2.2 = [.exchange "good-code", .userInfo "access-token"] := by
  decide


end Surfer
